import Mathlib

/-!
Shallow embedding of the run coordinator of us.proxy.sune.chat.

The source of truth is the JavaScript repository:
  * `run.js` (the revision with `MAX_RUN_MS`/`startedAt`, which the spec marks
    as authoritative): the per-uid run coordinator, delta batching, replay,
    stop/fail transitions, `handleMessage` and `handlePoll`;
  * `providers.js`: the SSE line splitters of `streamOpenRouter` and
    `streamGoogle`;
  * `db.js`: an in-memory key-value store with TTL (TTL expiry itself is not
    modelled; all theorems speak about the un-expired view of the store);
  * `index.js`: calls `addSocket(uid, ws)`, `handleMessage(uid, ws, msg)` and
    `handlePoll(uid)`, so the in-memory `runs` map is keyed by the `uid` of
    the socket/poll, while `rid` is the client-supplied run identifier.

Conventions of the embedding:
  * JavaScript string falsiness (`!s`) is modelled by comparison with `""`;
    absent-vs-present JSON fields are modelled with `Option` where the code
    distinguishes them.
  * Timers are modelled by `Bool` flags (`flushTimer`, `timeoutTimer`): armed
    or not.  A timer callback is an explicit event that only has an effect
    when the flag is armed, mirroring `setTimeout`/`clearTimeout`.
  * The `AbortController` is modelled by a `Bool` (present or not); calling
    `controller.abort()` is an explicit `Output.abortO` effect.
  * Socket sends, notifications and the spawning of an upstream stream are
    collected in an `Output` trace, in program order.
  * KV keys `run:<rid>`, `delta:<rid>:<seq padded to 10 digits>` and
    `prompt:<rid>` are modelled structurally.  The 10-digit zero padding in
    the source makes the delta key injective in `seq`, so the structural key
    is an exact model of the string key.
-/

/-- Lifecycle phase of a run: `idle`, `running`, `done`, `error`, `evicted`
(from the phase strings used by `run.js`). -/
inductive Phase where
  | idle
  | running
  | done
  | error
  | evicted
deriving DecidableEq, Repr

/-- A persisted delta `\x7bseq, text, images?\x7d`.  The `images?` field is
absent exactly when the list is empty (`flush` only attaches `images` when
`pendingImages` is non-empty), so an empty list models the absent field.
Image payloads are opaque strings. -/
structure Delta where
  seq : Int
  text : String
  images : List String
deriving DecidableEq, Repr

/-- A persisted snapshot `\x7brid, seq, phase, error, startedAt\x7d` as written by
`saveSnapshot`.  Program-written snapshots always carry all fields, so the
`?? `-defaults of `meta` never fire and the fields are total here. -/
structure Snap where
  rid : String
  seq : Int
  phase : Phase
  error : Option String
  startedAt : Nat
deriving DecidableEq, Repr

/-- One part of an array-shaped message `content`.  Only `type` and `text`
are inspected by `sanitizeMessages`; all remaining fields of the part object
are carried opaquely in `payload`. -/
structure MsgPart where
  type : String
  text : Option String
  payload : String
deriving DecidableEq, Repr

/-- The `content` of a message: a string, an array of parts, or any other
JSON value (carried opaquely), which `sanitizeMessages` leaves untouched. -/
inductive Content where
  | str (s : String)
  | parts (ps : List MsgPart)
  | other (raw : String)
deriving DecidableEq, Repr

/-- A chat message `\x7brole, content, ...\x7d`.  Keys other than `content` are
preserved verbatim by `sanitizeMessages` (object spread `...m`); besides
`role` they are carried opaquely in `extra`. -/
structure Message where
  role : String
  content : Content
  extra : String
deriving DecidableEq, Repr

/-- KV keys of `run.js`: `run:<rid>`, `delta:<rid>:<seq padded to 10
digits>`, `prompt:<rid>`, modelled structurally (the zero padding makes the
delta key injective in `seq`). -/
inductive KVKey where
  | runK (rid : String)
  | deltaK (rid : String) (seq : Int)
  | promptK (rid : String)
deriving DecidableEq, Repr

/-- KV values: a snapshot, a delta, or a sanitized prompt. -/
inductive KVVal where
  | snapV (s : Snap)
  | deltaV (d : Delta)
  | promptV (msgs : List Message)
deriving DecidableEq, Repr

/-- The KV store (`db.js`): an association list of unexpired entries.
`kv.set` replaces the binding in place when the key exists (SQLite
`INSERT OR REPLACE` on the primary key), else appends. -/
abbrev KV := List (KVKey × KVVal)

/-- Association-list lookup: the value at the first matching key, like a
keyed SQLite row. -/
def getAssoc {κ α : Type} [DecidableEq κ] : List (κ × α) → κ → Option α
  | [], _ => none
  | (k', v) :: t, k => if k' = k then some v else getAssoc t k

/-- Association-list update: replace the binding in place when the key
exists, else append (SQLite `INSERT OR REPLACE`; `Map.set`). -/
def setAssoc {κ α : Type} [DecidableEq κ] : List (κ × α) → κ → α → List (κ × α)
  | [], k, v => [(k, v)]
  | (k', v') :: t, k, v => if k' = k then (k, v) :: t else (k', v') :: setAssoc t k v

/-- In-memory state of one run (the per-uid record of `run.js`).  `sockets`
is the set of connected sockets (socket identities as `Nat`); `flushTimer`
and `timeoutTimer` record whether the one-shot timers are armed;
`controller` records whether an `AbortController` is attached. -/
structure Run where
  rid : String
  seq : Int
  phase : Phase
  error : Option String
  sockets : List Nat
  pending : String
  pendingImages : List String
  flushTimer : Bool
  controller : Bool
  startedAt : Nat
  timeoutTimer : Bool
deriving DecidableEq, Repr

/-- An outbound socket frame: `delta`, `done` or `err`. -/
inductive Frame where
  | delta (seq : Int) (text : String) (images : List String)
  | done
  | err (message : String)
deriving DecidableEq, Repr

/-- An observable effect of the coordinator, in program order: a socket
send, a controller abort, a notification (text elided), or the spawning of
an upstream provider stream by `begin`. -/
inductive Output where
  | send (sock : Nat) (f : Frame)
  | abortO
  | notifyO (rid : String)
  | upstreamStart (provider : String)
deriving DecidableEq, Repr

/-- The coordinator's world: the in-memory `runs` map (keyed by uid, as
`index.js` calls `addSocket(uid, ws)` / `handleMessage(uid, ...)`) and the
KV store. -/
structure World where
  runs : List (String × Run)
  kv : KV
deriving DecidableEq, Repr

/-- `BATCH_BYTES = 3400`. -/
def BATCH_BYTES : Nat := 3400

/-- `MAX_RUN_MS = 9 * 60 * 1000`. -/
def MAX_RUN_MS : Nat := 9 * 60 * 1000

/-- `saveSnapshot(r)`: persist the recoverable projection of `r` under
`run:<r.rid>`. -/
def saveSnapshot (r : Run) (kv : KV) : KV :=
  setAssoc kv (.runK r.rid) (.snapV ⟨r.rid, r.seq, r.phase, r.error, r.startedAt⟩)

/-- `bcast(r, obj)`: best-effort send of a frame to every connected socket
of the run (send errors are swallowed per-socket and not modelled). -/
def bcast (r : Run) (f : Frame) : List Output :=
  r.sockets.map (fun s => .send s f)

/-- `flush(r, force)`: clear the flush timer; if anything is pending, assign
the next `seq` (`++r.seq`), persist the delta under
`delta:<rid>:<padded seq>`, broadcast it, and clear the buffers; if `force`,
persist the snapshot afterwards. -/
def flush (r : Run) (kv : KV) (force : Bool) : Run × KV × List Output :=
  let r := { r with flushTimer := false }
  if r.pending ≠ "" ∨ r.pendingImages ≠ [] then
    let item : Delta := ⟨r.seq + 1, r.pending, r.pendingImages⟩
    let kv := setAssoc kv (.deltaK r.rid item.seq) (.deltaV item)
    let outs := bcast r (.delta item.seq item.text item.images)
    let r := { r with seq := r.seq + 1, pending := "", pendingImages := [] }
    let kv := if force then saveSnapshot r kv else kv
    (r, kv, outs)
  else
    let kv := if force then saveSnapshot r kv else kv
    (r, kv, [])

/-- `queueDelta(r, text, images)`: append to the pending buffers; flush
immediately on the size trigger (`pending.length >= BATCH_BYTES`, counted in
code units) or on any image, else arm the flush timer if it is not armed.
(`text.length` is measured here in characters rather than UTF-16 code units;
the difference is irrelevant to the claims.) -/
def queueDelta (r : Run) (kv : KV) (text : String) (images : List String) :
    Run × KV × List Output :=
  if text = "" ∧ images = [] then (r, kv, [])
  else
    let r := { r with pending := r.pending ++ text,
                      pendingImages := r.pendingImages ++ images }
    if BATCH_BYTES ≤ r.pending.length ∨ r.pendingImages ≠ [] then
      flush r kv false
    else if r.flushTimer then (r, kv, [])
    else ({ r with flushTimer := true }, kv, [])

/-- The delta values stored under `delta:<rid>:*` keys, in store order
(`kv.list` followed by `kv.get` and `filter(Boolean)`). -/
def deltasFor (kv : KV) (rid : String) : List Delta :=
  kv.filterMap (fun e =>
    match e with
    | (.deltaK r _, .deltaV d) => if r = rid then some d else none
    | _ => none)

/-- The comparison used by `getDeltas`'s sort (`(a, b) => a.seq - b.seq`). -/
def seqLE (a b : Delta) : Prop := a.seq ≤ b.seq

instance : DecidableRel seqLE := fun a b => Int.decLe a.seq b.seq

instance : IsTotal Delta seqLE := ⟨fun a b => Int.le_total a.seq b.seq⟩

instance : IsTrans Delta seqLE := ⟨fun _ _ _ h₁ h₂ => le_trans h₁ h₂⟩

/-- The stable ascending sort by `seq` (`Array.prototype.sort` with
comparator `a.seq - b.seq` is stable, as is insertion sort). -/
def sortBySeq (l : List Delta) : List Delta :=
  l.insertionSort seqLE

/-- `getDeltas(rid)`: all persisted deltas of the rid, sorted by `seq`. -/
def getDeltas (kv : KV) (rid : String) : List Delta :=
  sortBySeq (deltasFor kv rid)

/-- The message used when a falsy `r.error` (null or empty string) is
reported: `r.error || 'The run was terminated unexpectedly.'`. -/
def errMsg : Option String → String
  | none => "The run was terminated unexpectedly."
  | some s => if s = "" then "The run was terminated unexpectedly." else s

/-- `replay(r, ws, after)`: send every persisted delta with `seq > after` in
ascending order to the one socket, then the terminal frame if the phase is
terminal. -/
def replay (r : Run) (kv : KV) (ws : Nat) (after : Int) : List Output :=
  ((getDeltas kv r.rid).filter (fun it => after < it.seq)).map
      (fun it => Output.send ws (.delta it.seq it.text it.images))
    ++ (if r.phase = .done then [Output.send ws .done]
        else if r.phase = .error ∨ r.phase = .evicted then
          [Output.send ws (.err (errMsg r.error))]
        else [])

/-- `stop(r)`: no-op unless running; clear the timeout timer, final flush
with snapshot, move to `done`, clear `error`, abort the controller,
persist the snapshot, broadcast `done`, notify. -/
def stop (r : Run) (kv : KV) : Run × KV × List Output :=
  if r.phase ≠ .running then (r, kv, [])
  else
    let r0 := { r with timeoutTimer := false }
    let f := flush r0 kv true
    let r1 := { f.1 with phase := Phase.done, error := none }
    let ab := if r1.controller then [Output.abortO] else []
    let kv2 := saveSnapshot r1 f.2.1
    (r1, kv2, f.2.2 ++ ab ++ bcast r1 .done ++ [.notifyO r1.rid])

/-- `fail(r, message)`: no-op unless running; clear the timeout timer, queue
the synthetic trailer `"\n\nRun failed: <err>"` (with
`err = String(message || 'stream_failed')`), final flush with snapshot, move
to `error`, abort the controller, persist the snapshot, broadcast `err`,
notify. -/
def fail (r : Run) (kv : KV) (message : String) : Run × KV × List Output :=
  if r.phase ≠ .running then (r, kv, [])
  else
    let r0 := { r with timeoutTimer := false }
    let err := if message = "" then "stream_failed" else message
    let q := queueDelta r0 kv ("\n\nRun failed: " ++ err) []
    let f := flush q.1 q.2.1 true
    let r1 := { f.1 with phase := Phase.error, error := some err }
    let ab := if r1.controller then [Output.abortO] else []
    let kv2 := saveSnapshot r1 f.2.1
    (r1, kv2, q.2.2 ++ f.2.2 ++ ab ++ bcast r1 (.err err) ++ [.notifyO r1.rid])

/-- The `timeoutTimer` callback armed by `begin`: `fail` with the timeout
message (`MAX_RUN_MS / 60000 = 9`) if still running. -/
def timeoutFire (r : Run) (kv : KV) : Run × KV × List Output :=
  if r.phase = .running then fail r kv "Run timed out after 9 minutes." else (r, kv, [])

/-- JavaScript `String.prototype.trim` on the character list of a string:
drop whitespace from both ends.  (Implemented structurally so that it
computes definitionally; JS trims the full Unicode WhiteSpace class while
`Char.isWhitespace` covers ASCII whitespace — the difference is irrelevant
to the claims.) -/
def strTrim (s : String) : String :=
  ⟨((s.data.dropWhile Char.isWhitespace).reverse.dropWhile Char.isWhitespace).reverse⟩

/-- Does a part survive the array-content filter of `sanitizeMessages`?
`p.type !== 'text' || (p.text && p.text.trim().length > 0)`. -/
def keepPart (p : MsgPart) : Bool :=
  p.type ≠ "text" || strTrim (p.text.getD "") ≠ ""

/-- The text part `\x7btype:"text", text:"."\x7d` appended when filtering leaves
no text part. -/
def dotPart : MsgPart := ⟨"text", some ".", ""⟩

/-- Content normalization of `sanitizeMessages`: a blank string becomes
`"."`; an array is filtered by `keepPart` and a `dotPart` is appended when
no text part remains; any other shape is left untouched. -/
def sanitizeContent : Content → Content
  | .str s => if strTrim s = "" then .str "." else .str s
  | .parts ps =>
    let ps := ps.filter keepPart
    if ps.isEmpty || !(ps.any (fun p => p.type == "text")) then
      .parts (ps ++ [dotPart])
    else .parts ps
  | .other raw => .other raw

/-- `sanitizeMessages(messages)`: map `sanitizeContent` over the contents,
preserving `role` and all other keys (object spread `...m`).  The
non-array-input guard (`return []`) is not modelled because `handleMessage`
only calls this after checking `Array.isArray(body.messages)`. -/
def sanitizeMessages (ms : List Message) : List Message :=
  ms.map (fun m => { m with content := sanitizeContent m.content })

/-- Helper for `containsAbort`: does `"abort"` start at some position of the
character list? -/
def containsAbortAux : List Char → Bool
  | [] => false
  | c :: rest => "abort".data.isPrefixOf (c :: rest) || containsAbortAux rest

/-- Case-insensitive test for the substring `"abort"` (`/abort/i.test`). -/
def containsAbort (s : String) : Bool :=
  containsAbortAux s.toLower.data

/-- The cancellation-suppression test of `beginStream`'s catch:
`e?.name === 'AbortError' || /abort/i.test(msg)`. -/
def abortLike (name msg : String) : Bool :=
  name == "AbortError" || containsAbort msg

/-- `String(e?.message || 'stream_failed')`. -/
def dfltMsg (emsg : String) : String :=
  if emsg = "" then "stream_failed" else emsg

/-- How the awaited provider call ends: a normal return, or a throw with an
error `name` and `message`. -/
inductive AdapterOutcome where
  | ret
  | thrown (name : String) (emsg : String)
deriving DecidableEq, Repr

/-- The catch/finally tail of `beginStream`: on a throw while running,
`fail` unless the error is cancellation-like; then (finally) `stop` if still
running. -/
def adapterSettled (r : Run) (kv : KV) : AdapterOutcome → Run × KV × List Output
  | .ret => if r.phase = .running then stop r kv else (r, kv, [])
  | .thrown name emsg =>
    let s1 :=
      if r.phase = .running ∧ abortLike name (dfltMsg emsg) = false then
        fail r kv (dfltMsg emsg)
      else (r, kv, [])
    let s2 := if s1.1.phase = .running then stop s1.1 s1.2.1 else (s1.1, s1.2.1, [])
    (s2.1, s2.2.1, s1.2.2 ++ s2.2.2)

/-- An event delivered to a live run while its adapter streams: an
`onDelta(text, images)` callback (which calls `queueDelta`), or the firing
of the armed flush timer (`setTimeout(() => flush(r, false), BATCH_MS)`). -/
inductive RunEv where
  | deltaE (text : String) (images : List String)
  | timerE
deriving DecidableEq, Repr

/-- Apply one adapter-side event to a run. -/
def runStep (r : Run) (kv : KV) : RunEv → Run × KV × List Output
  | .deltaE t imgs => queueDelta r kv t imgs
  | .timerE => if r.flushTimer then flush r kv false else (r, kv, [])

/-- Apply a sequence of adapter-side events, accumulating outputs. -/
def runEvents (r : Run) (kv : KV) : List RunEv → Run × KV × List Output
  | [] => (r, kv, [])
  | e :: es =>
    let s1 := runStep r kv e
    let s2 := runEvents s1.1 s1.2.1 es
    (s2.1, s2.2.1, s1.2.2 ++ s2.2.2)

/-- `meta(uid)`: the in-memory run for the uid, else re-materialize from
the snapshot persisted under `run:<uid>` (note: under the *uid*, while
`saveSnapshot` writes under the run's `rid`), inserting it into the map.
The re-materialized record takes `rid` from the function argument, not from
the snapshot. -/
def metaRun (w : World) (uid : String) : Option Run × World :=
  match getAssoc w.runs uid with
  | some r => (some r, w)
  | none =>
    match getAssoc w.kv (.runK uid) with
    | some (.snapV s) =>
      let r : Run :=
        { rid := uid, seq := s.seq, phase := s.phase, error := s.error,
          sockets := [], pending := "", pendingImages := [],
          flushTimer := false, controller := false,
          startedAt := s.startedAt, timeoutTimer := false }
      (some r, ⟨setAssoc w.runs uid r, w.kv⟩)
    | _ => (none, w)

/-- `ensure(uid)`: `meta(uid)`, else a fresh idle run inserted into the map
(with `rid` initialized to the uid). -/
def ensureRun (w : World) (uid : String) : Run × World :=
  match metaRun w uid with
  | (some r, w1) => (r, w1)
  | (none, w1) =>
    let r : Run :=
      { rid := uid, seq := -1, phase := .idle, error := none,
        sockets := [], pending := "", pendingImages := [],
        flushTimer := false, controller := false,
        startedAt := 0, timeoutTimer := false }
    (r, ⟨setAssoc w1.runs uid r, w1.kv⟩)

/-- The normalized request body as far as the coordinator inspects it:
`model` and the `messages` field (`none` when `body.messages` is not an
array).  The remaining body fields flow to the provider adapters opaquely
and are elided. -/
structure BodyB where
  model : String
  messages : Option (List Message)
deriving DecidableEq, Repr

/-- The fields of a `begin` frame inspected by `handleMessage`.  `""` models
an absent or empty (falsy) string field; `after` is the numeric value of
`+after`, `none` when absent or non-numeric. -/
structure BeginMsg where
  rid : String
  apiKey : String
  orBody : Option BodyB
  model : String
  messages : Option (List Message)
  after : Option Int
  provider : String
deriving DecidableEq, Repr

/-- An inbound socket message after JSON parsing: `stop`, `begin`, or any
other `type` (rejected with `bad_type`). -/
inductive ClientMsg where
  | stopM (rid : String)
  | beginM (b : BeginMsg)
  | otherM (type : String)
deriving DecidableEq, Repr

/-- `or_body || (model && Array.isArray(messages) ? \x7bmodel, messages,
stream:true, ...msg\x7d : null)`: the body used by `begin`. -/
def beginBody (m : BeginMsg) : Option BodyB :=
  match m.orBody with
  | some b => some b
  | none =>
    if m.model ≠ "" then
      match m.messages with
      | some ms => some { model := m.model, messages := some ms }
      | none => none
    else none

/-- `handleMessage(uid, ws, msg)` of `run.js`.  `now` is `Date.now()` at the
time of the call (used for `startedAt`).  Spawning `beginStream` is recorded
as an `Output.upstreamStart`; the adapter's effects are delivered later via
`runEvents`/`adapterSettled`. -/
def handleMessage (w : World) (uid : String) (ws : Nat) (msg : ClientMsg) (now : Nat) :
    World × List Output :=
  let rw := ensureRun w uid
  let r := rw.1
  let w := rw.2
  match msg with
  | .stopM srid =>
    if srid = r.rid then
      let s := stop r w.kv
      (⟨setAssoc w.runs uid s.1, s.2.1⟩, s.2.2)
    else (w, [])
  | .otherM _ => (w, [.send ws (.err "bad_type")])
  | .beginM b =>
    match beginBody b with
    | none => (w, [.send ws (.err "missing_fields")])
    | some body =>
      match body.messages with
      | none => (w, [.send ws (.err "missing_fields")])
      | some ms =>
        if b.rid = "" ∨ b.apiKey = "" ∨ ms = [] then
          (w, [.send ws (.err "missing_fields")])
        else
          let ms' := sanitizeMessages ms
          if r.phase = .running ∧ b.rid ≠ r.rid then
            (w, [.send ws (.err "busy")])
          else if b.rid = r.rid ∧ r.phase ≠ .idle then
            (w, replay r w.kv ws (b.after.getD (-1)))
          else
            let r' := { r with
              rid := b.rid, seq := -1, phase := Phase.running, error := none,
              pending := "", pendingImages := [], controller := true,
              startedAt := now, timeoutTimer := true }
            let kv1 := setAssoc w.kv (.promptK b.rid) (.promptV ms')
            let kv2 := saveSnapshot r' kv1
            (⟨setAssoc w.runs uid r', kv2⟩,
             [.upstreamStart (if b.provider = "" then "openrouter" else b.provider)])

/-- Concatenation of the `text` fields (`deltas.map(d => d.text).join('')`). -/
def joinTexts (ds : List Delta) : String :=
  ds.foldr (fun d acc => d.text ++ acc) ""

/-- The JSON body returned by `handlePoll`. -/
structure PollRes where
  rid : Option String
  seq : Int
  phase : Phase
  done : Bool
  error : Option String
  text : String
  images : List String
deriving DecidableEq, Repr

/-- `handlePoll(uid)`: the sentinel when no run is known, else the snapshot
view built from the persisted deltas of the run's `rid` plus the pending
buffers.  (`meta` may insert a re-materialized run, hence the `World`
result.) -/
def handlePoll (w : World) (uid : String) : PollRes × World :=
  match metaRun w uid with
  | (none, w1) =>
    ({ rid := none, seq := -1, phase := .idle, done := false, error := none,
       text := "", images := [] }, w1)
  | (some r, w1) =>
    let ds := getDeltas w1.kv r.rid
    let isTerminal := r.phase = .done ∨ r.phase = .error ∨ r.phase = .evicted
    let isError := r.phase = .error ∨ r.phase = .evicted
    ({ rid := some r.rid, seq := r.seq, phase := r.phase,
       done := isTerminal,
       error := if isError then some (errMsg r.error) else none,
       text := joinTexts ds ++ r.pending,
       images := (ds.map (fun d => d.images)).flatten ++ r.pendingImages }, w1)

/-- One pass of the periodic cleanup over the entries of the `runs` map:
force-fail overdue running runs (`startedAt` truthy and
`now - startedAt > MAX_RUN_MS`), evict terminal runs with no sockets. -/
def cleanupGo (kv : KV) (now : Nat) :
    List (String × Run) → List (String × Run) × KV × List Output
  | [] => ([], kv, [])
  | (uid, r) :: rest =>
    if r.phase = .running then
      if r.startedAt ≠ 0 ∧ r.startedAt + MAX_RUN_MS < now then
        let f := fail r kv "Run timed out after 9 minutes."
        let g := cleanupGo f.2.1 now rest
        ((uid, f.1) :: g.1, g.2.1, f.2.2 ++ g.2.2)
      else
        let g := cleanupGo kv now rest
        ((uid, r) :: g.1, g.2.1, g.2.2)
    else if r.sockets = [] then cleanupGo kv now rest
    else
      let g := cleanupGo kv now rest
      ((uid, r) :: g.1, g.2.1, g.2.2)

/-- The `setInterval` cleanup body of `run.js`. -/
def cleanupTick (w : World) (now : Nat) : World × List Output :=
  let g := cleanupGo w.kv now w.runs
  (⟨g.1, g.2.1⟩, g.2.2)

/-- Deliver adapter-side events and the adapter's settling to the run of a
uid, writing the mutated run back into the map.  This encodes the
`beginStream` closure acting on the shared run object, with flush-timer
fires interleaved. -/
def driveAdapter (w : World) (uid : String) (evs : List RunEv) (oc : AdapterOutcome) :
    World × List Output :=
  match getAssoc w.runs uid with
  | none => (w, [])
  | some r =>
    let s1 := runEvents r w.kv evs
    let s2 := adapterSettled s1.1 s1.2.1 oc
    (⟨setAssoc w.runs uid s2.1, s2.2.1⟩, s1.2.2 ++ s2.2.2)

/-- `buf.split('\n')` on character lists: split at every LF, keeping empty
segments, with a final (possibly empty) segment after the last LF. -/
def splitLF : List Char → List (List Char)
  | [] => [[]]
  | c :: cs =>
    if c = '\n' then [] :: splitLF cs
    else
      match splitLF cs with
      | [] => [[c]]
      | l :: ls => (c :: l) :: ls

/-- The read loop of `streamOpenRouter` (providers.js), at the line level:
per read, append the chunk to the buffer, split on LF, *pop* the final
partial line back into the buffer, and hand every complete line to the
frame handler.  Returns the handed-off lines (in order) and the final
buffer. -/
def orFeed : List Char → List (List Char) → List (List Char) × List Char
  | buf, [] => ([], buf)
  | buf, c :: cs =>
    let ls := splitLF (buf ++ c)
    let rest := orFeed (ls.getLastD []) cs
    (ls.dropLast ++ rest.1, rest.2)

/-- The read loop of `streamGoogle` (providers.js), at the line level: per
read, append the chunk to the buffer, hand *every* line of
`buf.split('\n')` (including the final partial line) to the frame handler,
then keep only the text after the last LF
(`buf = buf.slice(buf.lastIndexOf('\n') + 1)`, which is the last segment of
the split) as the new buffer. -/
def googleFeed : List Char → List (List Char) → List (List Char) × List Char
  | buf, [] => ([], buf)
  | buf, c :: cs =>
    let ls := splitLF (buf ++ c)
    let rest := googleFeed (ls.getLastD []) cs
    (ls ++ rest.1, rest.2)

/-- The complete (LF-terminated) lines of a byte stream. -/
def completeLines (s : List Char) : List (List Char) :=
  (splitLF s).dropLast

/-- Formalization of the claim's phrase "contains at least one non-empty
text part", on a content value: a string content counts as its own text
part; an array content must have a `text`-typed part whose text is not
blank; any other content shape has no text part. -/
def hasTextPartC : Content → Bool
  | .str s => strTrim s != ""
  | .parts ps => ps.any (fun p => p.type == "text" && strTrim (p.text.getD "") != "")
  | .other _ => false

/-- A message "contains at least one non-empty text part". -/
def hasTextPart (m : Message) : Bool :=
  hasTextPartC m.content

/-- Is the content a string or an array (the shapes `sanitizeMessages`
normalizes)? -/
def isStrOrParts : Content → Bool
  | .other _ => false
  | _ => true

/-- Concatenation of the texts fed by the adapter through `onDelta` during
a list of run events. -/
def evTexts : List RunEv → String
  | [] => ""
  | .deltaE t _ :: es => t ++ evTexts es
  | .timerE :: es => evTexts es

/-! ### Lemmas about the association-list store -/

theorem getAssoc_setAssoc_self {κ α : Type} [DecidableEq κ]
    (l : List (κ × α)) (k : κ) (v : α) : getAssoc (setAssoc l k v) k = some v := by
  induction l with
  | nil => simp [setAssoc, getAssoc]
  | cons h t ih =>
    obtain ⟨k', v'⟩ := h
    by_cases hk : k' = k
    · simp [setAssoc, getAssoc, hk]
    · simp [setAssoc, getAssoc, hk, ih]

theorem getAssoc_setAssoc_ne {κ α : Type} [DecidableEq κ]
    (l : List (κ × α)) (k k' : κ) (v : α) (h : k' ≠ k) :
    getAssoc (setAssoc l k v) k' = getAssoc l k' := by
  have h' : ¬ k = k' := fun hkk => h hkk.symm
  induction l with
  | nil => simp [setAssoc, getAssoc, h']
  | cons hd t ih =>
    obtain ⟨k₀, v₀⟩ := hd
    by_cases hk : k₀ = k
    · subst hk
      simp [setAssoc, getAssoc, h']
    · simp only [setAssoc, if_neg hk, getAssoc]
      by_cases hk' : k₀ = k'
      · simp [hk']
      · simp [hk', ih]

theorem setAssoc_of_getAssoc_none {κ α : Type} [DecidableEq κ]
    (l : List (κ × α)) (k : κ) (v : α) (h : getAssoc l k = none) :
    setAssoc l k v = l ++ [(k, v)] := by
  induction l with
  | nil => simp [setAssoc]
  | cons hd t ih =>
    obtain ⟨k₀, v₀⟩ := hd
    by_cases hk : k₀ = k
    · simp [getAssoc, hk] at h
    · simp only [getAssoc, if_neg hk] at h
      simp [setAssoc, hk, ih h]

theorem setAssoc_setAssoc_self {κ α : Type} [DecidableEq κ]
    (l : List (κ × α)) (k : κ) (v v' : α) :
    setAssoc (setAssoc l k v) k v' = setAssoc l k v' := by
  induction l with
  | nil => simp [setAssoc]
  | cons hd t ih =>
    obtain ⟨k₀, v₀⟩ := hd
    by_cases hk : k₀ = k
    · simp [setAssoc, hk]
    · simp [setAssoc, hk, ih]

theorem getAssoc_append_of_none {κ α : Type} [DecidableEq κ]
    (l₁ l₂ : List (κ × α)) (k : κ) (h : getAssoc l₁ k = none) :
    getAssoc (l₁ ++ l₂) k = getAssoc l₂ k := by
  induction l₁ with
  | nil => simp
  | cons hd t ih =>
    obtain ⟨k₀, v₀⟩ := hd
    by_cases hk : k₀ = k
    · simp [getAssoc, hk] at h
    · simp only [getAssoc, if_neg hk] at h
      simpa [getAssoc, hk] using ih h

/-! ### Lemmas about the delta log -/

theorem deltasFor_append (kv₁ kv₂ : KV) (rid : String) :
    deltasFor (kv₁ ++ kv₂) rid = deltasFor kv₁ rid ++ deltasFor kv₂ rid :=
  List.filterMap_append ..

theorem deltasFor_singleton_delta (rid : String) (s : Int) (d : Delta) :
    deltasFor [(.deltaK rid s, .deltaV d)] rid = [d] := by
  simp [deltasFor]

theorem deltasFor_setAssoc_runK (kv : KV) (x rid : String) (v : KVVal) :
    deltasFor (setAssoc kv (.runK x) v) rid = deltasFor kv rid := by
  induction kv with
  | nil => simp [setAssoc, deltasFor]
  | cons hd t ih =>
    obtain ⟨k₀, v₀⟩ := hd
    by_cases hk : k₀ = KVKey.runK x
    · subst hk
      simp [setAssoc, deltasFor]
    · simp only [setAssoc, if_neg hk, deltasFor, List.filterMap_cons]
      simp only [deltasFor] at ih
      cases k₀ <;> cases v₀ <;> simp [ih]

theorem deltasFor_setAssoc_promptK (kv : KV) (x rid : String) (v : KVVal) :
    deltasFor (setAssoc kv (.promptK x) v) rid = deltasFor kv rid := by
  induction kv with
  | nil => simp [setAssoc, deltasFor]
  | cons hd t ih =>
    obtain ⟨k₀, v₀⟩ := hd
    by_cases hk : k₀ = KVKey.promptK x
    · subst hk
      simp [setAssoc, deltasFor]
    · simp only [setAssoc, if_neg hk, deltasFor, List.filterMap_cons]
      simp only [deltasFor] at ih
      cases k₀ <;> cases v₀ <;> simp [ih]

theorem deltasFor_nil_of_none (kv : KV) (rid : String)
    (h : ∀ s : Int, getAssoc kv (.deltaK rid s) = none) :
    deltasFor kv rid = [] := by
  induction kv with
  | nil => rfl
  | cons hd t ih =>
    obtain ⟨k₀, v₀⟩ := hd
    have ht : ∀ s : Int, getAssoc t (.deltaK rid s) = none := by
      intro s
      have := h s
      by_cases hk : k₀ = KVKey.deltaK rid s
      · simp [getAssoc, hk] at this
      · simpa [getAssoc, hk] using this
    have hhd : ∀ s : Int, (k₀ = KVKey.deltaK rid s) → False := by
      intro s hk
      have := h s
      simp [getAssoc, hk] at this
    simp only [deltasFor, List.filterMap_cons]
    cases k₀ with
    | deltaK r s =>
      cases v₀ with
      | deltaV d =>
        by_cases hr : r = rid
        · exact absurd (by rw [hr]) (hhd s)
        · simpa [deltasFor, hr] using ih ht
      | snapV s' => simpa [deltasFor] using ih ht
      | promptV p => simpa [deltasFor] using ih ht
    | runK r => simpa [deltasFor] using ih ht
    | promptK r => simpa [deltasFor] using ih ht

/-! ### Lemmas about the stable sort by `seq` -/

theorem sortBySeq_perm (l : List Delta) : (sortBySeq l).Perm l :=
  List.perm_insertionSort _ l

theorem sortBySeq_sorted (l : List Delta) :
    List.Pairwise (fun a b => a.seq ≤ b.seq) (sortBySeq l) :=
  List.sorted_insertionSort seqLE l

theorem orderedInsert_append_max (d x : Delta) (s : List Delta) (h : d.seq ≤ x.seq) :
    List.orderedInsert seqLE d (s ++ [x]) = List.orderedInsert seqLE d s ++ [x] := by
  induction s with
  | nil => simp [List.orderedInsert, seqLE, h]
  | cons e es ih =>
    by_cases he : seqLE d e
    · simp [List.orderedInsert, he]
    · simp [List.orderedInsert, he, ih]

theorem sortBySeq_append_max (l : List Delta) (x : Delta)
    (h : ∀ d ∈ l, d.seq ≤ x.seq) :
    sortBySeq (l ++ [x]) = sortBySeq l ++ [x] := by
  induction l with
  | nil => simp [sortBySeq, List.insertionSort]
  | cons d ds ih =>
    have hd : d.seq ≤ x.seq := h d (by simp)
    have hds : ∀ e ∈ ds, e.seq ≤ x.seq := fun e he => h e (by simp [he])
    show sortBySeq (d :: (ds ++ [x])) = _
    unfold sortBySeq List.insertionSort
    rw [show List.insertionSort seqLE (ds ++ [x]) = sortBySeq ds ++ [x] from ih hds]
    exact orderedInsert_append_max d x _ hd

/-! ### Lemmas about text concatenation -/

theorem joinTexts_nil : joinTexts [] = "" := rfl

theorem joinTexts_cons (d : Delta) (l : List Delta) :
    joinTexts (d :: l) = d.text ++ joinTexts l := rfl

theorem joinTexts_append (l₁ l₂ : List Delta) :
    joinTexts (l₁ ++ l₂) = joinTexts l₁ ++ joinTexts l₂ := by
  induction l₁ with
  | nil => rw [List.nil_append, joinTexts_nil, String.empty_append]
  | cons d ds ih =>
    rw [List.cons_append, joinTexts_cons, joinTexts_cons, ih, String.append_assoc]

theorem joinTexts_single (d : Delta) : joinTexts [d] = d.text := by
  rw [joinTexts_cons, joinTexts_nil, String.append_empty]

/-! ### The streaming invariant of a running activation -/

theorem deltasFor_set_fresh (kv : KV) (rid : String) (s : Int) (d : Delta)
    (h : getAssoc kv (.deltaK rid s) = none) :
    deltasFor (setAssoc kv (.deltaK rid s) (.deltaV d)) rid = deltasFor kv rid ++ [d] := by
  rw [setAssoc_of_getAssoc_none _ _ _ h, deltasFor_append, deltasFor_singleton_delta]

theorem saveSnapshot_deltasFor (r : Run) (kv : KV) (rid : String) :
    deltasFor (saveSnapshot r kv) rid = deltasFor kv rid :=
  deltasFor_setAssoc_runK ..

theorem saveSnapshot_getAssoc_deltaK (r : Run) (kv : KV) (rid : String) (s : Int) :
    getAssoc (saveSnapshot r kv) (.deltaK rid s) = getAssoc kv (.deltaK rid s) :=
  getAssoc_setAssoc_ne _ _ _ _ (by intro h; cases h)

/-- Invariant of a run's streaming activation for rid `rid`, with `acc` the
text received from the adapter so far: the run is still running under that
rid; every persisted delta of the rid has `seq` at most the run's `seq`; no
delta key above the run's `seq` is occupied; the persisted texts in `seq`
order followed by the pending buffer spell `acc`; and the number of
persisted deltas is `seq + 1`. -/
def CoordInv (rid : String) (r : Run) (kv : KV) (acc : String) : Prop :=
  r.rid = rid ∧ r.phase = .running ∧
  (∀ d ∈ deltasFor kv rid, d.seq ≤ r.seq) ∧
  (∀ s : Int, r.seq < s → getAssoc kv (.deltaK rid s) = none) ∧
  joinTexts (getDeltas kv rid) ++ r.pending = acc ∧
  (-1 : Int) ≤ r.seq ∧
  (deltasFor kv rid).length = (r.seq + 1).toNat

theorem flush_eq_pos (r : Run) (kv : KV) (force : Bool)
    (hc : r.pending ≠ "" ∨ r.pendingImages ≠ []) :
    flush r kv force =
      ({ r with flushTimer := false, seq := r.seq + 1, pending := "",
                pendingImages := [] },
       (if force then
          saveSnapshot
            { r with flushTimer := false, seq := r.seq + 1, pending := "",
                     pendingImages := [] }
            (setAssoc kv (.deltaK r.rid (r.seq + 1))
              (.deltaV ⟨r.seq + 1, r.pending, r.pendingImages⟩))
        else
          setAssoc kv (.deltaK r.rid (r.seq + 1))
            (.deltaV ⟨r.seq + 1, r.pending, r.pendingImages⟩)),
       bcast { r with flushTimer := false }
         (.delta (r.seq + 1) r.pending r.pendingImages)) := by
  simp only [flush]
  rw [if_pos hc]

theorem flush_eq_neg (r : Run) (kv : KV) (force : Bool)
    (hp : r.pending = "") (hi : r.pendingImages = []) :
    flush r kv force =
      ({ r with flushTimer := false },
       (if force then saveSnapshot { r with flushTimer := false } kv else kv),
       []) := by
  simp only [flush]
  rw [if_neg]
  simp [hp, hi]

theorem saveSnapshot_getDeltas (r : Run) (kv : KV) (rid : String) :
    getDeltas (saveSnapshot r kv) rid = getDeltas kv rid := by
  unfold getDeltas
  rw [saveSnapshot_deltasFor]

theorem flush_inv (rid : String) (r : Run) (kv : KV) (force : Bool) (acc : String)
    (hinv : CoordInv rid r kv acc) :
    CoordInv rid (flush r kv force).1 (flush r kv force).2.1 acc
    ∧ (flush r kv force).1.sockets = r.sockets
    ∧ (flush r kv force).1.error = r.error
    ∧ (flush r kv force).1.controller = r.controller
    ∧ (flush r kv force).1.startedAt = r.startedAt
    ∧ (flush r kv force).1.timeoutTimer = r.timeoutTimer
    ∧ (flush r kv force).1.pending = ""
    ∧ r.seq ≤ (flush r kv force).1.seq := by
  obtain ⟨hrid, hph, hbound, hnone, htext, hge, hlen⟩ := hinv
  by_cases hc : r.pending ≠ "" ∨ r.pendingImages ≠ []
  · have hfresh : getAssoc kv (.deltaK rid (r.seq + 1)) = none :=
      hnone (r.seq + 1) (by omega)
    have hfresh' : getAssoc kv (.deltaK r.rid (r.seq + 1)) = none := by
      rw [hrid]
      exact hfresh
    have hdeltas :
        deltasFor (setAssoc kv (.deltaK r.rid (r.seq + 1))
            (.deltaV ⟨r.seq + 1, r.pending, r.pendingImages⟩)) rid
          = deltasFor kv rid ++ [⟨r.seq + 1, r.pending, r.pendingImages⟩] := by
      rw [hrid] at hfresh' ⊢
      exact deltasFor_set_fresh kv rid (r.seq + 1) _ hfresh'
    have hmax : ∀ d ∈ deltasFor kv rid,
        d.seq ≤ (Delta.mk (r.seq + 1) r.pending r.pendingImages).seq :=
      fun d hd => le_trans (hbound d hd) (by show r.seq ≤ r.seq + 1; omega)
    have hsorted :
        getDeltas (setAssoc kv (.deltaK r.rid (r.seq + 1))
            (.deltaV ⟨r.seq + 1, r.pending, r.pendingImages⟩)) rid
          = getDeltas kv rid ++ [⟨r.seq + 1, r.pending, r.pendingImages⟩] := by
      unfold getDeltas
      rw [hdeltas]
      exact sortBySeq_append_max _ _ hmax
    have hlook : ∀ s : Int, r.seq + 1 < s →
        getAssoc (setAssoc kv (.deltaK r.rid (r.seq + 1))
            (.deltaV ⟨r.seq + 1, r.pending, r.pendingImages⟩)) (.deltaK rid s) = none := by
      intro s hs
      rw [hrid, setAssoc_of_getAssoc_none _ _ _ hfresh,
        getAssoc_append_of_none _ _ _ (hnone s (by omega))]
      have hnek : KVKey.deltaK rid (r.seq + 1) ≠ KVKey.deltaK rid s := by
        intro h
        cases h
        omega
      simp [getAssoc, hnek]
    have hboundn : ∀ d ∈ deltasFor kv rid ++ [⟨r.seq + 1, r.pending, r.pendingImages⟩],
        d.seq ≤ ((r.seq + 1 : Int)) := by
      intro d hd
      rcases List.mem_append.mp hd with h | h
      · exact le_trans (hbound d h) (by omega)
      · simp only [List.mem_singleton] at h
        subst h
        simp
    have hlenn : (deltasFor kv rid ++ [(⟨r.seq + 1, r.pending, r.pendingImages⟩ : Delta)]).length
        = ((r.seq + 1) + 1).toNat := by
      rw [List.length_append, hlen]
      simp only [List.length_singleton]
      omega
    have htextn :
        joinTexts (getDeltas kv rid ++ [(⟨r.seq + 1, r.pending, r.pendingImages⟩ : Delta)]) ++ ""
          = acc := by
      rw [String.append_empty, joinTexts_append, joinTexts_single]
      exact htext
    rw [flush_eq_pos r kv force hc]
    cases force
    · rw [if_neg Bool.false_ne_true]
      refine ⟨⟨hrid, hph, ?_, ?_, ?_,
          by show (-1 : Int) ≤ r.seq + 1; omega, ?_⟩,
        rfl, rfl, rfl, rfl, rfl, rfl, by show r.seq ≤ r.seq + 1; omega⟩
      · intro d hd
        rw [hdeltas] at hd
        exact hboundn d hd
      · intro s hs
        exact hlook s hs
      · rw [hsorted]
        exact htextn
      · rw [hdeltas]
        exact hlenn
    · rw [if_pos rfl]
      refine ⟨⟨hrid, hph, ?_, ?_, ?_,
          by show (-1 : Int) ≤ r.seq + 1; omega, ?_⟩,
        rfl, rfl, rfl, rfl, rfl, rfl, by show r.seq ≤ r.seq + 1; omega⟩
      · intro d hd
        rw [saveSnapshot_deltasFor, hdeltas] at hd
        exact hboundn d hd
      · intro s hs
        rw [saveSnapshot_getAssoc_deltaK]
        exact hlook s hs
      · rw [saveSnapshot_getDeltas, hsorted]
        exact htextn
      · rw [saveSnapshot_deltasFor, hdeltas]
        exact hlenn
  · push_neg at hc
    obtain ⟨hp, hi⟩ := hc
    have hp' : r.pending = "" := hp
    rw [flush_eq_neg r kv force hp' hi]
    cases force
    · rw [if_neg Bool.false_ne_true]
      exact ⟨⟨hrid, hph, hbound, hnone, htext, hge, hlen⟩,
        rfl, rfl, rfl, rfl, rfl, hp', le_refl _⟩
    · rw [if_pos rfl]
      refine ⟨⟨hrid, hph, ?_, ?_, ?_, hge, ?_⟩, rfl, rfl, rfl, rfl, rfl, hp', le_refl _⟩
      · intro d hd
        rw [saveSnapshot_deltasFor] at hd
        exact hbound d hd
      · intro s hs
        rw [saveSnapshot_getAssoc_deltaK]
        exact hnone s hs
      · show joinTexts (getDeltas (saveSnapshot _ kv) rid) ++ r.pending = acc
        rw [saveSnapshot_getDeltas]
        exact htext
      · rw [saveSnapshot_deltasFor]
        exact hlen

/-- The text contributed by one adapter-side event. -/
def evText : RunEv → String
  | .deltaE t _ => t
  | .timerE => ""

theorem evTexts_cons (e : RunEv) (es : List RunEv) :
    evTexts (e :: es) = evText e ++ evTexts es := by
  cases e
  · rfl
  · show evTexts es = "" ++ evTexts es
    rw [String.empty_append]

theorem queueDelta_inv (rid : String) (r : Run) (kv : KV) (t : String)
    (imgs : List String) (acc : String) (hinv : CoordInv rid r kv acc) :
    CoordInv rid (queueDelta r kv t imgs).1 (queueDelta r kv t imgs).2.1 (acc ++ t)
    ∧ (queueDelta r kv t imgs).1.sockets = r.sockets
    ∧ (queueDelta r kv t imgs).1.error = r.error
    ∧ (queueDelta r kv t imgs).1.controller = r.controller
    ∧ (queueDelta r kv t imgs).1.startedAt = r.startedAt
    ∧ (queueDelta r kv t imgs).1.timeoutTimer = r.timeoutTimer
    ∧ r.seq ≤ (queueDelta r kv t imgs).1.seq := by
  obtain ⟨hrid, hph, hbound, hnone, htext, hge, hlen⟩ := hinv
  by_cases h0 : t = "" ∧ imgs = []
  · have heq : queueDelta r kv t imgs = (r, kv, []) := by
      simp only [queueDelta, if_pos h0]
    rw [heq]
    obtain ⟨ht, _⟩ := h0
    subst ht
    rw [String.append_empty]
    exact ⟨⟨hrid, hph, hbound, hnone, htext, hge, hlen⟩, rfl, rfl, rfl, rfl, rfl, le_refl _⟩
  · have hinv1 : CoordInv rid
        { r with pending := r.pending ++ t, pendingImages := r.pendingImages ++ imgs } kv
        (acc ++ t) := by
      refine ⟨hrid, hph, hbound, hnone, ?_, hge, hlen⟩
      show joinTexts (getDeltas kv rid) ++ (r.pending ++ t) = acc ++ t
      rw [← String.append_assoc, htext]
    by_cases h1 : BATCH_BYTES ≤ (r.pending ++ t).length ∨ r.pendingImages ++ imgs ≠ []
    · have heq : queueDelta r kv t imgs =
          flush { r with pending := r.pending ++ t,
                         pendingImages := r.pendingImages ++ imgs } kv false := by
        simp only [queueDelta, if_neg h0]
        rw [if_pos h1]
      rw [heq]
      obtain ⟨hc, hs, he, hco, hst, hti, _, hsq⟩ :=
        flush_inv rid _ kv false (acc ++ t) hinv1
      exact ⟨hc, hs, he, hco, hst, hti, hsq⟩
    · by_cases h2 : r.flushTimer = true
      · have heq : queueDelta r kv t imgs =
            ({ r with pending := r.pending ++ t,
                      pendingImages := r.pendingImages ++ imgs }, kv, []) := by
          simp only [queueDelta, if_neg h0]
          rw [if_neg h1, if_pos h2]
        rw [heq]
        exact ⟨hinv1, rfl, rfl, rfl, rfl, rfl, le_refl _⟩
      · have heq : queueDelta r kv t imgs =
            ({ r with pending := r.pending ++ t,
                      pendingImages := r.pendingImages ++ imgs,
                      flushTimer := true }, kv, []) := by
          simp only [queueDelta, if_neg h0]
          rw [if_neg h1, if_neg h2]
        rw [heq]
        obtain ⟨hr1, hp1, hb1, hn1, ht1, hg1, hl1⟩ := hinv1
        exact ⟨⟨hr1, hp1, hb1, hn1, ht1, hg1, hl1⟩, rfl, rfl, rfl, rfl, rfl, le_refl _⟩

theorem runStep_inv (rid : String) (r : Run) (kv : KV) (e : RunEv) (acc : String)
    (hinv : CoordInv rid r kv acc) :
    CoordInv rid (runStep r kv e).1 (runStep r kv e).2.1 (acc ++ evText e)
    ∧ (runStep r kv e).1.sockets = r.sockets
    ∧ (runStep r kv e).1.error = r.error
    ∧ (runStep r kv e).1.controller = r.controller
    ∧ (runStep r kv e).1.startedAt = r.startedAt
    ∧ (runStep r kv e).1.timeoutTimer = r.timeoutTimer
    ∧ r.seq ≤ (runStep r kv e).1.seq := by
  cases e with
  | deltaE t imgs => exact queueDelta_inv rid r kv t imgs acc hinv
  | timerE =>
    by_cases h : r.flushTimer = true
    · have heq : runStep r kv .timerE = flush r kv false := by
        simp only [runStep]
        rw [if_pos h]
      rw [heq, show evText .timerE = "" from rfl, String.append_empty]
      obtain ⟨hc, hs, he, hco, hst, hti, _, hsq⟩ := flush_inv rid r kv false acc hinv
      exact ⟨hc, hs, he, hco, hst, hti, hsq⟩
    · have heq : runStep r kv .timerE = (r, kv, []) := by
        simp only [runStep]
        rw [if_neg h]
      rw [heq, show evText .timerE = "" from rfl, String.append_empty]
      exact ⟨hinv, rfl, rfl, rfl, rfl, rfl, le_refl _⟩

theorem runEvents_inv (rid : String) (evs : List RunEv) :
    ∀ (r : Run) (kv : KV) (acc : String), CoordInv rid r kv acc →
    CoordInv rid (runEvents r kv evs).1 (runEvents r kv evs).2.1 (acc ++ evTexts evs)
    ∧ (runEvents r kv evs).1.sockets = r.sockets
    ∧ (runEvents r kv evs).1.error = r.error
    ∧ (runEvents r kv evs).1.controller = r.controller
    ∧ (runEvents r kv evs).1.startedAt = r.startedAt
    ∧ (runEvents r kv evs).1.timeoutTimer = r.timeoutTimer
    ∧ r.seq ≤ (runEvents r kv evs).1.seq := by
  induction evs with
  | nil =>
    intro r kv acc hinv
    show CoordInv rid r kv (acc ++ "") ∧ _
    rw [String.append_empty]
    exact ⟨hinv, rfl, rfl, rfl, rfl, rfl, le_refl _⟩
  | cons e es ih =>
    intro r kv acc hinv
    obtain ⟨hc, hs, he, hco, hst, hti, hsq⟩ := runStep_inv rid r kv e acc hinv
    obtain ⟨hc', hs', he', hco', hst', hti', hsq'⟩ :=
      ih (runStep r kv e).1 (runStep r kv e).2.1 (acc ++ evText e) hc
    rw [evTexts_cons, ← String.append_assoc]
    exact ⟨hc',
      by rw [show (runEvents r kv (e :: es)).1 = (runEvents (runStep r kv e).1 (runStep r kv e).2.1 es).1 from rfl, hs', hs],
      by rw [show (runEvents r kv (e :: es)).1 = (runEvents (runStep r kv e).1 (runStep r kv e).2.1 es).1 from rfl, he', he],
      by rw [show (runEvents r kv (e :: es)).1 = (runEvents (runStep r kv e).1 (runStep r kv e).2.1 es).1 from rfl, hco', hco],
      by rw [show (runEvents r kv (e :: es)).1 = (runEvents (runStep r kv e).1 (runStep r kv e).2.1 es).1 from rfl, hst', hst],
      by rw [show (runEvents r kv (e :: es)).1 = (runEvents (runStep r kv e).1 (runStep r kv e).2.1 es).1 from rfl, hti', hti],
      by rw [show (runEvents r kv (e :: es)).1 = (runEvents (runStep r kv e).1 (runStep r kv e).2.1 es).1 from rfl]
         exact le_trans hsq hsq'⟩

theorem stop_eq_run (r : Run) (kv : KV) (hrun : r.phase = .running) :
    stop r kv =
      ({ (flush { r with timeoutTimer := false } kv true).1 with
           phase := Phase.done, error := none },
       saveSnapshot
         { (flush { r with timeoutTimer := false } kv true).1 with
             phase := Phase.done, error := none }
         (flush { r with timeoutTimer := false } kv true).2.1,
       (flush { r with timeoutTimer := false } kv true).2.2
         ++ (if (flush { r with timeoutTimer := false } kv true).1.controller then
               [Output.abortO] else [])
         ++ bcast
              { (flush { r with timeoutTimer := false } kv true).1 with
                  phase := Phase.done, error := none } .done
         ++ [.notifyO (flush { r with timeoutTimer := false } kv true).1.rid]) := by
  unfold stop
  rw [if_neg (by simp [hrun])]

theorem stop_inv (rid : String) (r : Run) (kv : KV) (acc : String)
    (hrun : r.phase = .running) (hinv : CoordInv rid r kv acc) :
    (stop r kv).1.rid = rid ∧ (stop r kv).1.phase = .done ∧ (stop r kv).1.error = none
    ∧ (stop r kv).1.pending = ""
    ∧ (stop r kv).1.sockets = r.sockets
    ∧ joinTexts (getDeltas (stop r kv).2.1 rid) = acc
    ∧ (∀ d ∈ deltasFor (stop r kv).2.1 rid, d.seq ≤ (stop r kv).1.seq)
    ∧ (-1 : Int) ≤ (stop r kv).1.seq
    ∧ (deltasFor (stop r kv).2.1 rid).length = ((stop r kv).1.seq + 1).toNat := by
  have hinv0 : CoordInv rid { r with timeoutTimer := false } kv acc := by
    obtain ⟨hrid, hph, hbound, hnone, htext, hge, hlen⟩ := hinv
    exact ⟨hrid, hph, hbound, hnone, htext, hge, hlen⟩
  obtain ⟨⟨hrid, hph, hbound, hnone, htext, hge, hlen⟩, hs, he, hco, hst, hti, hp, hsq⟩ :=
    flush_inv rid { r with timeoutTimer := false } kv true acc hinv0
  rw [stop_eq_run r kv hrun]
  have hjoin :
      joinTexts (getDeltas (flush { r with timeoutTimer := false } kv true).2.1 rid) = acc := by
    rw [← htext, hp, String.append_empty]
  refine ⟨hrid, rfl, rfl, hp, hs, ?_, ?_, hge, ?_⟩
  · show joinTexts (getDeltas (saveSnapshot _ (flush _ kv true).2.1) rid) = acc
    rw [saveSnapshot_getDeltas]
    exact hjoin
  · intro d hd
    rw [show deltasFor (saveSnapshot _ (flush { r with timeoutTimer := false } kv true).2.1) rid
        = deltasFor (flush { r with timeoutTimer := false } kv true).2.1 rid
      from saveSnapshot_deltasFor ..] at hd
    exact hbound d hd
  · show (deltasFor (saveSnapshot _ (flush _ kv true).2.1) rid).length = _
    rw [saveSnapshot_deltasFor]
    exact hlen

/-! ### Branch-computation lemmas for the message handlers -/

theorem ensureRun_fresh (w : World) (uid : String)
    (h1 : getAssoc w.runs uid = none) (h2 : getAssoc w.kv (.runK uid) = none) :
    ensureRun w uid =
      ({ rid := uid, seq := -1, phase := .idle, error := none, sockets := [],
         pending := "", pendingImages := [], flushTimer := false, controller := false,
         startedAt := 0, timeoutTimer := false },
       ⟨setAssoc w.runs uid
          { rid := uid, seq := -1, phase := .idle, error := none, sockets := [],
            pending := "", pendingImages := [], flushTimer := false, controller := false,
            startedAt := 0, timeoutTimer := false },
        w.kv⟩) := by
  unfold ensureRun metaRun
  rw [h1, h2]

theorem ensureRun_mem (w : World) (uid : String) :
    getAssoc (ensureRun w uid).2.runs uid = some (ensureRun w uid).1 := by
  unfold ensureRun metaRun
  cases hm : getAssoc w.runs uid with
  | some r => exact hm
  | none =>
    cases hk : getAssoc w.kv (.runK uid) with
    | none => exact getAssoc_setAssoc_self ..
    | some v =>
      cases v with
      | snapV s => exact getAssoc_setAssoc_self ..
      | deltaV d => exact getAssoc_setAssoc_self ..
      | promptV p => exact getAssoc_setAssoc_self ..

theorem ensureRun_kv (w : World) (uid : String) : (ensureRun w uid).2.kv = w.kv := by
  unfold ensureRun metaRun
  cases hm : getAssoc w.runs uid with
  | some r => rfl
  | none =>
    cases hk : getAssoc w.kv (.runK uid) with
    | none => rfl
    | some v => cases v <;> rfl

theorem handleMessage_begin_start (w : World) (uid : String) (ws : Nat) (b : BeginMsg)
    (now : Nat) (body : BodyB) (ms : List Message) (r : Run) (w1 : World)
    (hens : ensureRun w uid = (r, w1))
    (hrid : b.rid ≠ "") (hkey : b.apiKey ≠ "")
    (hbody : beginBody b = some body) (hms : body.messages = some ms) (hne : ms ≠ [])
    (hnbusy : ¬(r.phase = .running ∧ b.rid ≠ r.rid))
    (hnreplay : ¬(b.rid = r.rid ∧ r.phase ≠ .idle)) :
    handleMessage w uid ws (.beginM b) now =
      (⟨setAssoc w1.runs uid
          { r with rid := b.rid, seq := -1, phase := Phase.running, error := none,
                   pending := "", pendingImages := [], controller := true,
                   startedAt := now, timeoutTimer := true },
        saveSnapshot
          { r with rid := b.rid, seq := -1, phase := Phase.running, error := none,
                   pending := "", pendingImages := [], controller := true,
                   startedAt := now, timeoutTimer := true }
          (setAssoc w1.kv (.promptK b.rid) (.promptV (sanitizeMessages ms)))⟩,
       [.upstreamStart (if b.provider = "" then "openrouter" else b.provider)]) := by
  simp only [handleMessage, hens, hbody, hms]
  rw [if_neg (by simp [hrid, hkey, hne]), if_neg hnbusy, if_neg hnreplay]

theorem handleMessage_begin_replay (w : World) (uid : String) (ws : Nat) (b : BeginMsg)
    (now : Nat) (body : BodyB) (ms : List Message) (r : Run) (w1 : World)
    (hens : ensureRun w uid = (r, w1))
    (hrid : b.rid ≠ "") (hkey : b.apiKey ≠ "")
    (hbody : beginBody b = some body) (hms : body.messages = some ms) (hne : ms ≠ [])
    (hsame : b.rid = r.rid) (hnidle : r.phase ≠ .idle) :
    handleMessage w uid ws (.beginM b) now =
      (w1, replay r w1.kv ws (b.after.getD (-1))) := by
  simp only [handleMessage, hens, hbody, hms]
  rw [if_neg (by simp [hrid, hkey, hne]),
    if_neg (by intro hc; exact hc.2 hsame), if_pos ⟨hsame, hnidle⟩]

theorem handleMessage_begin_busy (w : World) (uid : String) (ws : Nat) (b : BeginMsg)
    (now : Nat) (body : BodyB) (ms : List Message) (r : Run) (w1 : World)
    (hens : ensureRun w uid = (r, w1))
    (hrid : b.rid ≠ "") (hkey : b.apiKey ≠ "")
    (hbody : beginBody b = some body) (hms : body.messages = some ms) (hne : ms ≠ [])
    (hrun : r.phase = .running) (hdiff : b.rid ≠ r.rid) :
    handleMessage w uid ws (.beginM b) now = (w1, [.send ws (.err "busy")]) := by
  simp only [handleMessage, hens, hbody, hms]
  rw [if_neg (by simp [hrid, hkey, hne]), if_pos ⟨hrun, hdiff⟩]

theorem handleMessage_stop_other (w : World) (uid : String) (ws : Nat) (srid : String)
    (now : Nat) (r : Run) (w1 : World)
    (hens : ensureRun w uid = (r, w1)) (hdiff : srid ≠ r.rid) :
    handleMessage w uid ws (.stopM srid) now = (w1, []) := by
  simp only [handleMessage, hens]
  rw [if_neg hdiff]

theorem driveAdapter_mem (w : World) (uid : String) (r : Run) (evs : List RunEv)
    (oc : AdapterOutcome) (h : getAssoc w.runs uid = some r) :
    driveAdapter w uid evs oc =
      (⟨setAssoc w.runs uid
          (adapterSettled (runEvents r w.kv evs).1 (runEvents r w.kv evs).2.1 oc).1,
        (adapterSettled (runEvents r w.kv evs).1 (runEvents r w.kv evs).2.1 oc).2.1⟩,
       (runEvents r w.kv evs).2.2
         ++ (adapterSettled (runEvents r w.kv evs).1 (runEvents r w.kv evs).2.1 oc).2.2) := by
  simp only [driveAdapter, h]

theorem adapterSettled_ret_running (r : Run) (kv : KV) (h : r.phase = .running) :
    adapterSettled r kv .ret = stop r kv := by
  unfold adapterSettled
  rw [if_pos h]

theorem handlePoll_mem (w : World) (uid : String) (r : Run)
    (h : getAssoc w.runs uid = some r) :
    handlePoll w uid =
      ({ rid := some r.rid, seq := r.seq, phase := r.phase,
         done := decide (r.phase = .done ∨ r.phase = .error ∨ r.phase = .evicted),
         error := if r.phase = .error ∨ r.phase = .evicted then some (errMsg r.error)
                  else none,
         text := joinTexts (getDeltas w.kv r.rid) ++ r.pending,
         images := ((getDeltas w.kv r.rid).map (fun d => d.images)).flatten
                     ++ r.pendingImages },
       w) := by
  simp only [handlePoll, metaRun, h]

/-- The full happy-path trace: a `begin` message, a list of adapter-side
events, then the adapter's normal return (so `beginStream`'s finally calls
`stop`). -/
def happyWorld (w : World) (uid : String) (ws : Nat) (b : BeginMsg) (now : Nat)
    (evs : List RunEv) : World :=
  (driveAdapter (handleMessage w uid ws (.beginM b) now).1 uid evs .ret).1

theorem handleMessage_begin_fresh_facts (w : World) (uid : String) (ws : Nat)
    (b : BeginMsg) (now : Nat) (body : BodyB) (ms : List Message)
    (h1 : getAssoc w.runs uid = none) (h2 : getAssoc w.kv (.runK uid) = none)
    (hrid : b.rid ≠ "") (hkey : b.apiKey ≠ "")
    (hbody : beginBody b = some body) (hms : body.messages = some ms) (hne : ms ≠ []) :
    ∃ rB : Run,
      getAssoc (handleMessage w uid ws (.beginM b) now).1.runs uid = some rB
      ∧ rB.rid = b.rid ∧ rB.phase = .running ∧ rB.seq = -1 ∧ rB.pending = ""
      ∧ rB.pendingImages = []
      ∧ (∀ s : Int, getAssoc (handleMessage w uid ws (.beginM b) now).1.kv (.deltaK b.rid s)
          = getAssoc w.kv (.deltaK b.rid s))
      ∧ (∀ rid' : String, deltasFor (handleMessage w uid ws (.beginM b) now).1.kv rid'
          = deltasFor w.kv rid') := by
  have hens := ensureRun_fresh w uid h1 h2
  rw [handleMessage_begin_start w uid ws b now body ms _ _ hens hrid hkey hbody hms hne
    (by simp) (by simp)]
  refine ⟨_, getAssoc_setAssoc_self .., rfl, rfl, rfl, rfl, rfl, ?_, ?_⟩
  · intro s
    show getAssoc (saveSnapshot _ (setAssoc _ (.promptK b.rid) _)) (.deltaK b.rid s) = _
    rw [saveSnapshot_getAssoc_deltaK, getAssoc_setAssoc_ne _ _ _ _ (by intro hh; cases hh)]
  · intro rid'
    show deltasFor (saveSnapshot _ (setAssoc _ (.promptK b.rid) _)) rid' = _
    rw [saveSnapshot_deltasFor, deltasFor_setAssoc_promptK]

/-- Claim C7: for every Run driven to normal completion (fresh uid, valid
`begin`, any interleaving of adapter `onDelta` events and flush-timer
fires, then a normal adapter return), a subsequent `handlePoll` on that uid
returns `done:true`, `error:null`, `text` equal to the concatenation of all
adapter `onDelta` texts (which is the concatenation in `seq` order of the
persisted delta texts), and `seq` equal to the last assigned sequence
number (the index of the last persisted delta). -/
theorem claim7_stream_then_poll (w : World) (uid : String) (ws : Nat) (b : BeginMsg)
    (now : Nat) (evs : List RunEv) (body : BodyB) (ms : List Message)
    (h1 : getAssoc w.runs uid = none)
    (h2 : getAssoc w.kv (.runK uid) = none)
    (hrid : b.rid ≠ "") (hkey : b.apiKey ≠ "")
    (hbody : beginBody b = some body) (hms : body.messages = some ms) (hne : ms ≠ [])
    (hd : ∀ s : Int, getAssoc w.kv (.deltaK b.rid s) = none) :
    (handlePoll (happyWorld w uid ws b now evs) uid).1.done = true
    ∧ (handlePoll (happyWorld w uid ws b now evs) uid).1.error = none
    ∧ (handlePoll (happyWorld w uid ws b now evs) uid).1.phase = .done
    ∧ (handlePoll (happyWorld w uid ws b now evs) uid).1.rid = some b.rid
    ∧ (handlePoll (happyWorld w uid ws b now evs) uid).1.text = evTexts evs
    ∧ (handlePoll (happyWorld w uid ws b now evs) uid).1.seq
        = ((deltasFor (happyWorld w uid ws b now evs).kv b.rid).length : Int) - 1
    ∧ ∀ d ∈ deltasFor (happyWorld w uid ws b now evs).kv b.rid,
        d.seq ≤ (handlePoll (happyWorld w uid ws b now evs) uid).1.seq := by
  obtain ⟨rB, hmem, hbrid, hbph, hbseq, hbpend, hbimgs, hkvd, hkvall⟩ :=
    handleMessage_begin_fresh_facts w uid ws b now body ms h1 h2 hrid hkey hbody hms hne
  have hdel : deltasFor (handleMessage w uid ws (.beginM b) now).1.kv b.rid = [] := by
    rw [hkvall]
    exact deltasFor_nil_of_none _ _ hd
  have hnone2 : ∀ s : Int,
      getAssoc (handleMessage w uid ws (.beginM b) now).1.kv (.deltaK b.rid s) = none := by
    intro s
    rw [hkvd]
    exact hd s
  have hinv : CoordInv b.rid rB (handleMessage w uid ws (.beginM b) now).1.kv "" := by
    refine ⟨hbrid, hbph, ?_, ?_, ?_, ?_, ?_⟩
    · intro d hdm
      rw [hdel] at hdm
      cases hdm
    · intro s _
      exact hnone2 s
    · unfold getDeltas
      rw [hdel, hbpend]
      rfl
    · rw [hbseq]
    · rw [hdel, hbseq]
      rfl
  have hre := runEvents_inv b.rid evs rB (handleMessage w uid ws (.beginM b) now).1.kv "" hinv
  have hinv1 : CoordInv b.rid
      (runEvents rB (handleMessage w uid ws (.beginM b) now).1.kv evs).1
      (runEvents rB (handleMessage w uid ws (.beginM b) now).1.kv evs).2.1
      (evTexts evs) := by
    have := hre.1
    rwa [String.empty_append] at this
  have hrun1 : (runEvents rB (handleMessage w uid ws (.beginM b) now).1.kv evs).1.phase
      = .running := hinv1.2.1
  obtain ⟨hsrid, hsph, hserr, hsp, _, hsjoin, hsbound, hsge, hslen⟩ :=
    stop_inv b.rid _ _ (evTexts evs) hrun1 hinv1
  have hW : happyWorld w uid ws b now evs =
      ⟨setAssoc (handleMessage w uid ws (.beginM b) now).1.runs uid
         (stop (runEvents rB (handleMessage w uid ws (.beginM b) now).1.kv evs).1
           (runEvents rB (handleMessage w uid ws (.beginM b) now).1.kv evs).2.1).1,
       (stop (runEvents rB (handleMessage w uid ws (.beginM b) now).1.kv evs).1
         (runEvents rB (handleMessage w uid ws (.beginM b) now).1.kv evs).2.1).2.1⟩ := by
    unfold happyWorld
    rw [driveAdapter_mem _ uid rB evs .ret hmem, adapterSettled_ret_running _ _ hrun1]
  rw [hW, handlePoll_mem _ uid _ (getAssoc_setAssoc_self ..)]
  refine ⟨?_, ?_, ?_, ?_, ?_, ?_, ?_⟩
  · show decide _ = true
    rw [hsph]
    simp
  · show (if _ then _ else _) = none
    rw [if_neg]
    rw [hsph]
    simp
  · exact hsph
  · show some _ = some b.rid
    rw [hsrid]
  · show joinTexts (getDeltas _ _) ++ _ = evTexts evs
    rw [hsrid, hsp, String.append_empty]
    exact hsjoin
  · show (stop (runEvents rB (handleMessage w uid ws (.beginM b) now).1.kv evs).1
        (runEvents rB (handleMessage w uid ws (.beginM b) now).1.kv evs).2.1).1.seq
      = ((deltasFor (stop (runEvents rB (handleMessage w uid ws (.beginM b) now).1.kv evs).1
            (runEvents rB (handleMessage w uid ws (.beginM b) now).1.kv evs).2.1).2.1
          b.rid).length : Int) - 1
    omega
  · intro d hdm
    exact hsbound d hdm

/-- Claim C1: for every non-idle Run and every well-formed `begin` message
carrying the Run's current `rid` and a cursor `after` (default -1 when
absent or non-numeric), the coordinator replays to the issuing socket
exactly the persisted deltas with `seq > after`, in ascending `seq` order
(the replayed list is the sorted permutation of the persisted deltas,
filtered by the cursor), then sends the terminal frame if and only if the
phase is terminal, and makes no new upstream call. -/
theorem claim1_resume_replays (w : World) (uid : String) (ws : Nat) (b : BeginMsg)
    (now : Nat) (body : BodyB) (ms : List Message) (r : Run) (w1 : World)
    (hens : ensureRun w uid = (r, w1))
    (hrid : b.rid ≠ "") (hkey : b.apiKey ≠ "")
    (hbody : beginBody b = some body) (hms : body.messages = some ms) (hne : ms ≠ [])
    (hsame : b.rid = r.rid) (hnidle : r.phase ≠ .idle) :
    handleMessage w uid ws (.beginM b) now =
      (w1,
       ((getDeltas w.kv r.rid).filter (fun it => b.after.getD (-1) < it.seq)).map
           (fun it => Output.send ws (.delta it.seq it.text it.images))
         ++ (if r.phase = .done then [Output.send ws .done]
             else if r.phase = .error ∨ r.phase = .evicted then
               [Output.send ws (.err (errMsg r.error))]
             else []))
    ∧ List.Pairwise (fun a c => a.seq ≤ c.seq) (getDeltas w.kv r.rid)
    ∧ (getDeltas w.kv r.rid).Perm (deltasFor w.kv r.rid)
    ∧ ∀ p, Output.upstreamStart p ∉ (handleMessage w uid ws (.beginM b) now).2 := by
  have hkv : w1.kv = w.kv := by
    have h := ensureRun_kv w uid
    rw [hens] at h
    exact h
  have heq := handleMessage_begin_replay w uid ws b now body ms r w1 hens hrid hkey
    hbody hms hne hsame hnidle
  rw [hkv] at heq
  refine ⟨by rw [heq]; rfl, sortBySeq_sorted _, sortBySeq_perm _, ?_⟩
  intro p hp
  rw [heq] at hp
  simp only at hp
  unfold replay at hp
  rcases List.mem_append.mp hp with h | h
  · obtain ⟨it, -, habs⟩ := List.mem_map.mp h
    simp at habs
  · by_cases hph : r.phase = .done
    · rw [if_pos hph] at h
      simp at h
    · rw [if_neg hph] at h
      by_cases hpe : r.phase = .error ∨ r.phase = .evicted
      · rw [if_pos hpe] at h
        simp at h
      · rw [if_neg hpe] at h
        simp at h

/-- Claim C4: a well-formed `begin` whose `rid` differs from the Run's
current `rid` while the Run is `running` is answered with
`err "busy"` to the sender only, and the Run record (in particular its
`phase`, `seq`, `pending` and `pendingImages`) and the KV store are left
unchanged. -/
theorem claim4_busy_leaves_run (w : World) (uid : String) (ws : Nat) (b : BeginMsg)
    (now : Nat) (body : BodyB) (ms : List Message) (r : Run) (w1 : World)
    (hens : ensureRun w uid = (r, w1))
    (hrid : b.rid ≠ "") (hkey : b.apiKey ≠ "")
    (hbody : beginBody b = some body) (hms : body.messages = some ms) (hne : ms ≠ [])
    (hrun : r.phase = .running) (hdiff : b.rid ≠ r.rid) :
    handleMessage w uid ws (.beginM b) now = (w1, [.send ws (.err "busy")])
    ∧ getAssoc (handleMessage w uid ws (.beginM b) now).1.runs uid = some r
    ∧ (handleMessage w uid ws (.beginM b) now).1.kv = w.kv := by
  have heq := handleMessage_begin_busy w uid ws b now body ms r w1 hens hrid hkey
    hbody hms hne hrun hdiff
  have hmem := ensureRun_mem w uid
  rw [hens] at hmem
  have hkv : w1.kv = w.kv := by
    have h := ensureRun_kv w uid
    rw [hens] at h
    exact h
  exact ⟨heq, by rw [heq]; exact hmem, by rw [heq]; exact hkv⟩

/-- Claim C10: a `stop` message whose `rid` does not match the Run's
current `rid` produces no frame of any kind and leaves the Run record and
the KV store unchanged: the message is silently dropped. -/
theorem claim10_stop_mismatch_silent (w : World) (uid : String) (ws : Nat)
    (srid : String) (now : Nat) (r : Run) (w1 : World)
    (hens : ensureRun w uid = (r, w1)) (hdiff : srid ≠ r.rid) :
    handleMessage w uid ws (.stopM srid) now = (w1, [])
    ∧ getAssoc (handleMessage w uid ws (.stopM srid) now).1.runs uid = some r
    ∧ (handleMessage w uid ws (.stopM srid) now).1.kv = w.kv := by
  have heq := handleMessage_stop_other w uid ws srid now r w1 hens hdiff
  have hmem := ensureRun_mem w uid
  rw [hens] at hmem
  have hkv : w1.kv = w.kv := by
    have h := ensureRun_kv w uid
    rw [hens] at h
    exact h
  exact ⟨heq, by rw [heq]; exact hmem, by rw [heq]; exact hkv⟩

theorem trailer_ne (t : String) : ("\n\nRun failed: " ++ t) ≠ "" := by
  intro h
  have hl := congrArg String.length h
  rw [String.length_append] at hl
  have h14 : ("\n\nRun failed: " : String).length = 14 := rfl
  have h0 : ("" : String).length = 0 := rfl
  omega

theorem append_trailer_ne (p t : String) : (p ++ ("\n\nRun failed: " ++ t)) ≠ "" := by
  intro h
  have hl := congrArg String.length h
  rw [String.length_append, String.length_append] at hl
  have h14 : ("\n\nRun failed: " : String).length = 14 := rfl
  have h0 : ("" : String).length = 0 := rfl
  omega

theorem queueDelta_eq_flush (r : Run) (kv : KV) (t : String) (imgs : List String)
    (h0 : ¬(t = "" ∧ imgs = []))
    (h1 : BATCH_BYTES ≤ (r.pending ++ t).length ∨ r.pendingImages ++ imgs ≠ []) :
    queueDelta r kv t imgs =
      flush { r with pending := r.pending ++ t,
                     pendingImages := r.pendingImages ++ imgs } kv false := by
  simp only [queueDelta, if_neg h0]
  rw [if_pos h1]

theorem queueDelta_eq_armed (r : Run) (kv : KV) (t : String) (imgs : List String)
    (h0 : ¬(t = "" ∧ imgs = []))
    (h1 : ¬(BATCH_BYTES ≤ (r.pending ++ t).length ∨ r.pendingImages ++ imgs ≠ []))
    (h2 : r.flushTimer = true) :
    queueDelta r kv t imgs =
      ({ r with pending := r.pending ++ t,
                pendingImages := r.pendingImages ++ imgs }, kv, []) := by
  simp only [queueDelta, if_neg h0]
  rw [if_neg h1, if_pos h2]

theorem queueDelta_eq_arm (r : Run) (kv : KV) (t : String) (imgs : List String)
    (h0 : ¬(t = "" ∧ imgs = []))
    (h1 : ¬(BATCH_BYTES ≤ (r.pending ++ t).length ∨ r.pendingImages ++ imgs ≠ []))
    (h2 : ¬(r.flushTimer = true)) :
    queueDelta r kv t imgs =
      ({ r with pending := r.pending ++ t,
                pendingImages := r.pendingImages ++ imgs,
                flushTimer := true }, kv, []) := by
  simp only [queueDelta, if_neg h0]
  rw [if_neg h1, if_neg h2]

theorem fail_eq_run (r : Run) (kv : KV) (msg : String) (hrun : r.phase = .running) :
    fail r kv msg =
      ({ r with seq := r.seq + 1, phase := Phase.error,
                error := some (if msg = "" then "stream_failed" else msg),
                pending := "", pendingImages := [],
                flushTimer := false, timeoutTimer := false },
       setAssoc
         (setAssoc kv (.deltaK r.rid (r.seq + 1))
           (.deltaV ⟨r.seq + 1,
             r.pending ++ ("\n\nRun failed: " ++ (if msg = "" then "stream_failed" else msg)),
             r.pendingImages⟩))
         (.runK r.rid)
         (.snapV ⟨r.rid, r.seq + 1, .error,
           some (if msg = "" then "stream_failed" else msg), r.startedAt⟩),
       r.sockets.map (fun s => Output.send s
           (.delta (r.seq + 1)
             (r.pending ++ ("\n\nRun failed: " ++ (if msg = "" then "stream_failed" else msg)))
             r.pendingImages))
         ++ (if r.controller then [Output.abortO] else [])
         ++ r.sockets.map (fun s => Output.send s
             (.err (if msg = "" then "stream_failed" else msg)))
         ++ [.notifyO r.rid]) := by
  by_cases h1 : BATCH_BYTES ≤
      (r.pending ++ ("\n\nRun failed: " ++ (if msg = "" then "stream_failed" else msg))).length
  all_goals by_cases h2 : r.flushTimer = true
  all_goals by_cases h3 : r.pendingImages = []
  all_goals rw [show (BATCH_BYTES ≤
      (r.pending ++ ("\n\nRun failed: " ++ (if msg = "" then "stream_failed" else msg))).length)
      = (BATCH_BYTES ≤ r.pending.length +
          ("\n\nRun failed: ".length + (if msg = "" then "stream_failed" else msg).length))
    from by rw [String.length_append, String.length_append]] at h1
  all_goals simp [fail, queueDelta, flush, bcast, saveSnapshot, hrun, h1, h2, h3, trailer_ne,
    append_trailer_ne, setAssoc_setAssoc_self]

theorem errMsg_fail (msg : String) :
    errMsg (some (if msg = "" then "stream_failed" else msg))
      = (if msg = "" then "stream_failed" else msg) := by
  by_cases hm : msg = ""
  · rw [if_pos hm]
    show (if ("stream_failed" : String) = "" then "The run was terminated unexpectedly."
      else "stream_failed") = "stream_failed"
    rw [if_neg (by decide)]
  · rw [if_neg hm]
    show (if msg = "" then "The run was terminated unexpectedly." else msg) = msg
    rw [if_neg hm]

/-- Claim C5: when the adapter throws a non-cancellation error while the
Run is `running` (or the timeout fires), `fail` appends the synthetic
trailer `"\n\nRun failed: <err>"` to the pending text, persists it as the
next delta, persists the Snapshot with phase `error` and the error string,
aborts the controller, broadcasts the delta and then `err` to every
connected socket, and notifies; a subsequent poll on the resulting state
reports phase `error`, `done:true` and the error string.  The last two
conjuncts tie the triggers to `fail`: a non-abort-like adapter throw while
running settles exactly as `fail` with the defaulted message, and the
timeout callback is `fail` with the timeout message. -/
theorem claim5_failure_path (r : Run) (kv : KV) (uid : String) (msg name emsg : String)
    (hrun : r.phase = .running) (hctl : r.controller = true) :
    fail r kv msg =
      ({ r with seq := r.seq + 1, phase := Phase.error,
                error := some (if msg = "" then "stream_failed" else msg),
                pending := "", pendingImages := [],
                flushTimer := false, timeoutTimer := false },
       setAssoc
         (setAssoc kv (.deltaK r.rid (r.seq + 1))
           (.deltaV ⟨r.seq + 1,
             r.pending ++ ("\n\nRun failed: " ++ (if msg = "" then "stream_failed" else msg)),
             r.pendingImages⟩))
         (.runK r.rid)
         (.snapV ⟨r.rid, r.seq + 1, .error,
           some (if msg = "" then "stream_failed" else msg), r.startedAt⟩),
       r.sockets.map (fun s => Output.send s
           (.delta (r.seq + 1)
             (r.pending ++ ("\n\nRun failed: " ++ (if msg = "" then "stream_failed" else msg)))
             r.pendingImages))
         ++ [Output.abortO]
         ++ r.sockets.map (fun s => Output.send s
             (.err (if msg = "" then "stream_failed" else msg)))
         ++ [.notifyO r.rid])
    ∧ (handlePoll ⟨[(uid, (fail r kv msg).1)], (fail r kv msg).2.1⟩ uid).1.phase = .error
    ∧ (handlePoll ⟨[(uid, (fail r kv msg).1)], (fail r kv msg).2.1⟩ uid).1.done = true
    ∧ (handlePoll ⟨[(uid, (fail r kv msg).1)], (fail r kv msg).2.1⟩ uid).1.error
        = some (if msg = "" then "stream_failed" else msg)
    ∧ (abortLike name (dfltMsg emsg) = false →
        adapterSettled r kv (.thrown name emsg) = fail r kv (dfltMsg emsg))
    ∧ timeoutFire r kv = fail r kv "Run timed out after 9 minutes." := by
  have hfeq := fail_eq_run r kv msg hrun
  have hpoll := handlePoll_mem ⟨[(uid, (fail r kv msg).1)], (fail r kv msg).2.1⟩ uid
    (fail r kv msg).1 (by simp [getAssoc])
  have hph : (fail r kv msg).1.phase = .error := by rw [hfeq]
  have herr : (fail r kv msg).1.error
      = some (if msg = "" then "stream_failed" else msg) := by rw [hfeq]
  refine ⟨?_, ?_, ?_, ?_, ?_, ?_⟩
  · rw [hfeq, hctl]
    rfl
  · rw [hpoll]
    exact hph
  · rw [hpoll]
    show decide _ = true
    rw [hph]
    simp
  · rw [hpoll]
    show (if _ then _ else _) = _
    rw [if_pos (Or.inl hph), herr, errMsg_fail]
  · intro hna
    simp only [adapterSettled]
    rw [if_pos (show r.phase = .running ∧ abortLike name (dfltMsg emsg) = false from
      ⟨hrun, hna⟩)]
    have hph2 : (fail r kv (dfltMsg emsg)).1.phase = .error := by
      rw [fail_eq_run r kv (dfltMsg emsg) hrun]
    rw [if_neg (show ¬((fail r kv (dfltMsg emsg)).1.phase = .running) from by
      rw [hph2]; intro hh; cases hh)]
    rw [List.append_nil]
  · unfold timeoutFire
    rw [if_pos hrun]

theorem flush_outs_delta (r : Run) (kv : KV) (force : Bool) :
    ∀ o ∈ (flush r kv force).2.2, ∃ s sq tx im, o = Output.send s (.delta sq tx im) := by
  by_cases hc : r.pending ≠ "" ∨ r.pendingImages ≠ []
  · rw [flush_eq_pos _ _ _ hc]
    intro o ho
    obtain ⟨s, -, rfl⟩ := List.mem_map.mp ho
    exact ⟨s, _, _, _, rfl⟩
  · push_neg at hc
    rw [flush_eq_neg _ _ _ hc.1 hc.2]
    intro o ho
    cases ho

/-- Claim C6: an adapter throw whose error has name "AbortError" or whose
(defaulted) message matches `/abort/i` never invokes `fail`: the settled
Run is in the `error` phase only if it already was, a still-running Run
transitions to `done` with `error` cleared, and no `err` frame is sent to
any socket. -/
theorem claim6_abort_suppressed (r : Run) (kv : KV) (name emsg : String)
    (hab : abortLike name (dfltMsg emsg) = true) :
    ((adapterSettled r kv (.thrown name emsg)).1.phase = .error ↔ r.phase = .error)
    ∧ (r.phase = .running →
        (adapterSettled r kv (.thrown name emsg)).1.phase = .done
        ∧ (adapterSettled r kv (.thrown name emsg)).1.error = none)
    ∧ ∀ (s : Nat) (m : String),
        Output.send s (.err m) ∉ (adapterSettled r kv (.thrown name emsg)).2.2 := by
  have hno : ¬(r.phase = .running ∧ abortLike name (dfltMsg emsg) = false) := by
    intro hh
    rw [hab] at hh
    exact absurd hh.2 (by simp)
  simp only [adapterSettled]
  rw [if_neg hno]
  by_cases hrun : r.phase = .running
  · rw [if_pos hrun]
    have hst := stop_eq_run r kv hrun
    refine ⟨?_, fun _ => ⟨by rw [hst], by rw [hst]⟩, ?_⟩
    · rw [hst]
      constructor
      · intro hh
        cases hh
      · intro hh
        rw [hrun] at hh
        cases hh
    · intro s m hmem
      rw [hst] at hmem
      rw [List.nil_append] at hmem
      rcases List.mem_append.mp hmem with h | h
      · rcases List.mem_append.mp h with h' | h'
        · rcases List.mem_append.mp h' with h'' | h''
          · obtain ⟨s', sq, tx, im, habs⟩ := flush_outs_delta _ kv true _ h''
            cases habs
          · by_cases hcl : (flush { r with timeoutTimer := false } kv true).1.controller = true
            · rw [if_pos hcl] at h''
              simp at h''
            · rw [if_neg hcl] at h''
              cases h''
        · obtain ⟨s', -, habs⟩ := List.mem_map.mp h'
          cases habs
      · simp at h
  · rw [if_neg hrun]
    refine ⟨Iff.rfl, fun hh => absurd hh hrun, ?_⟩
    intro s m hmem
    rw [List.nil_append] at hmem
    cases hmem

/-- Claim C2 (amended): after the in-memory Run has been evicted, a poll
(or reconnect) for the uid observes the persisted final state — the
terminal phase with `done:true`, the last assigned `seq`, the error string
if any, and the concatenation of all persisted delta texts — *provided the
snapshot is found under `run:<uid>`*, i.e. when the Run's `rid` equals the
uid.  (`saveSnapshot` persists under `run:<rid>` while re-materialization
looks up `run:<uid>`, so with `rid ≠ uid` the poll returns the idle
sentinel instead; see the counterexample.) -/
theorem claim2_poll_after_eviction (w : World) (uid : String) (s : Snap)
    (hmem : getAssoc w.runs uid = none)
    (hsnap : getAssoc w.kv (.runK uid) = some (.snapV s))
    (hterm : s.phase = .done ∨ s.phase = .error ∨ s.phase = .evicted) :
    (handlePoll w uid).1.rid = some uid
    ∧ (handlePoll w uid).1.seq = s.seq
    ∧ (handlePoll w uid).1.phase = s.phase
    ∧ (handlePoll w uid).1.done = true
    ∧ (handlePoll w uid).1.error
        = (if s.phase = .error ∨ s.phase = .evicted then some (errMsg s.error) else none)
    ∧ (handlePoll w uid).1.text = joinTexts (getDeltas w.kv uid)
    ∧ (handlePoll w uid).1.images = ((getDeltas w.kv uid).map (fun d => d.images)).flatten := by
  have hpoll : handlePoll w uid =
      ({ rid := some uid, seq := s.seq, phase := s.phase,
         done := decide (s.phase = .done ∨ s.phase = .error ∨ s.phase = .evicted),
         error := if s.phase = .error ∨ s.phase = .evicted then some (errMsg s.error)
                  else none,
         text := joinTexts (getDeltas w.kv uid) ++ "",
         images := ((getDeltas w.kv uid).map (fun d => d.images)).flatten ++ [] },
       ⟨setAssoc w.runs uid
          { rid := uid, seq := s.seq, phase := s.phase, error := s.error, sockets := [],
            pending := "", pendingImages := [], flushTimer := false, controller := false,
            startedAt := s.startedAt, timeoutTimer := false },
        w.kv⟩) := by
    simp only [handlePoll, metaRun, hmem, hsnap]
  rw [hpoll]
  refine ⟨rfl, rfl, rfl, ?_, rfl, String.append_empty _, List.append_nil _⟩
  show decide _ = true
  rw [decide_eq_true_eq]
  exact hterm

/-- A one-user-message prompt used by concrete traces. -/
def exUser : Message := ⟨"user", .str "hi", ""⟩

/-- A well-formed `begin` message with the given rid, used by concrete
traces. -/
def exBegin (rid : String) : BeginMsg := ⟨rid, "K", none, "m", some [exUser], none, ""⟩

/-- The world after: `begin` rid "r1" for uid "u" at time 5, adapter emits
"hello" and returns, the socketless terminal Run is evicted by the cleanup
sweep. -/
def cex2World : World :=
  (cleanupTick
    (driveAdapter (handleMessage ⟨[], []⟩ "u" 0 (.beginM (exBegin "r1")) 5).1 "u"
      [.deltaE "hello" []] .ret).1 100).1

/-- Counterexample to claim C2 as stated: with `rid = "r1" ≠ uid = "u"`,
the terminal snapshot and delta are persisted (under `run:r1` and
`delta:r1:0`), yet `handlePoll "u"` after eviction returns the idle
sentinel (`done:false`, empty text) instead of the persisted final state. -/
theorem claim2_counterexample :
    getAssoc cex2World.kv (.runK "r1") = some (.snapV ⟨"r1", 0, .done, none, 5⟩)
    ∧ getAssoc cex2World.kv (.deltaK "r1" 0) = some (.deltaV ⟨0, "hello", []⟩)
    ∧ (handlePoll cex2World "u").1
        = { rid := none, seq := -1, phase := .idle, done := false, error := none,
            text := "", images := [] } := by
  refine ⟨?_, ?_, ?_⟩ <;> rfl

/-- Claim C3 (amended): each flush that persists a delta assigns exactly
the previous `seq` plus one (and leaves `seq` unchanged when nothing is
pending), and re-materialization restores `seq` (and phase, error,
startedAt) from the Snapshot found under the uid key — so `seq` is
strictly monotone within one activation of a Run.  However, `seq` *can*
regress for a given rid: an accepted `begin` that reuses a rid after the
uid's Run has moved to a different rid (or after eviction when rid ≠ uid)
resets `seq` to -1 and re-assigns sequence numbers already persisted for
that rid; see the counterexample. -/
theorem claim3_seq_assignment :
    (∀ (r : Run) (kv : KV) (force : Bool),
        r.pending ≠ "" ∨ r.pendingImages ≠ [] →
          (flush r kv force).1.seq = r.seq + 1
          ∧ getAssoc (flush r kv force).2.1 (.deltaK r.rid (r.seq + 1))
              = some (.deltaV ⟨r.seq + 1, r.pending, r.pendingImages⟩))
    ∧ (∀ (r : Run) (kv : KV) (force : Bool),
        r.pending = "" → r.pendingImages = [] → (flush r kv force).1.seq = r.seq)
    ∧ (∀ (w : World) (uid : String) (s : Snap),
        getAssoc w.runs uid = none → getAssoc w.kv (.runK uid) = some (.snapV s) →
          (metaRun w uid).1 = some
            { rid := uid, seq := s.seq, phase := s.phase, error := s.error, sockets := [],
              pending := "", pendingImages := [], flushTimer := false, controller := false,
              startedAt := s.startedAt, timeoutTimer := false }) := by
  refine ⟨?_, ?_, ?_⟩
  · intro r kv force hc
    rw [flush_eq_pos _ _ _ hc]
    refine ⟨rfl, ?_⟩
    cases force
    · rw [if_neg Bool.false_ne_true]
      exact getAssoc_setAssoc_self ..
    · rw [if_pos rfl]
      show getAssoc (saveSnapshot _ _) _ = _
      rw [saveSnapshot_getAssoc_deltaK]
      exact getAssoc_setAssoc_self ..
  · intro r kv force hp hi
    rw [flush_eq_neg _ _ _ hp hi]
  · intro w uid s h1 h2
    simp only [metaRun, h1, h2]

def cex3W2 : World :=
  (driveAdapter (handleMessage ⟨[], []⟩ "u" 0 (.beginM (exBegin "a")) 0).1 "u"
    [.deltaE "x" []] .ret).1

def cex3W5 : World :=
  (handleMessage
    (driveAdapter (handleMessage cex3W2 "u" 0 (.beginM (exBegin "b")) 0).1 "u" [] .ret).1
    "u" 0 (.beginM (exBegin "a")) 0).1

def cex3W6 : World := (driveAdapter cex3W5 "u" [.deltaE "y" []] .ret).1

/-- Counterexample to claim C3 as stated: uid "u" runs rid "a" to
completion (persisting `delta:a:0` = "x"), then rid "b", then `begin`s rid
"a" again — the coordinator accepts it (phase `done`, rid differs), resets
`seq` to -1, and the next flush assigns `seq = 0` to a new delta for rid
"a", at or below the already persisted one (overwriting `delta:a:0`). -/
theorem claim3_counterexample :
    getAssoc cex3W2.kv (.deltaK "a" 0) = some (.deltaV ⟨0, "x", []⟩)
    ∧ (getAssoc cex3W5.runs "u").map (fun r => (r.rid, r.seq)) = some ("a", -1)
    ∧ getAssoc cex3W6.kv (.deltaK "a" 0) = some (.deltaV ⟨0, "y", []⟩) := by
  refine ⟨?_, ?_, ?_⟩ <;> rfl

/-- Counterexample to claim C8 as stated ("this holds for every shape of
`content`"): a message whose `content` is neither a string nor an array
(here a JSON `null`) passes through `sanitizeMessages` untouched and
contains no text part at all. -/
theorem claim8_counterexample :
    sanitizeMessages [⟨"user", .other "null", ""⟩] = [⟨"user", .other "null", ""⟩]
    ∧ hasTextPart ⟨"user", .other "null", ""⟩ = false := by
  exact ⟨rfl, rfl⟩

/-- Claim C8 (amended): every message produced by `sanitizeMessages` whose
content is a string or an array contains at least one non-empty text part
(string content that is blank becomes "."; array content has blank-text
parts dropped and a dot part appended when no text part remains); roles
and all other message keys are preserved; content of any other shape
passes through unchanged and may contain no text part. -/
theorem claim8_sanitized_text_part (ms : List Message) (m' : Message)
    (hm : m' ∈ sanitizeMessages ms) :
    (∃ m ∈ ms, m'.role = m.role ∧ m'.extra = m.extra
      ∧ m'.content = sanitizeContent m.content)
    ∧ (isStrOrParts m'.content = true → hasTextPart m' = true) := by
  obtain ⟨m, hmem, rfl⟩ := List.mem_map.mp hm
  refine ⟨⟨m, hmem, rfl, rfl, rfl⟩, ?_⟩
  intro hshape
  show hasTextPartC (sanitizeContent m.content) = true
  cases hc : m.content with
  | str s =>
    by_cases hs : strTrim s = ""
    · rw [show sanitizeContent (.str s) = .str "." from by
        simp [sanitizeContent, hs]]
      rfl
    · rw [show sanitizeContent (.str s) = .str s from by
        simp [sanitizeContent, hs]]
      show (strTrim s != "") = true
      exact bne_iff_ne.mpr hs
  | parts ps =>
    simp only [sanitizeContent]
    by_cases hb : ((ps.filter keepPart).isEmpty
        || !((ps.filter keepPart).any (fun p => p.type == "text"))) = true
    · rw [if_pos hb]
      show ((ps.filter keepPart) ++ [dotPart]).any _ = true
      rw [List.any_append]
      have hdot : ([dotPart].any fun p => p.type == "text" && strTrim (p.text.getD "") != "")
          = true := rfl
      rw [hdot, Bool.or_true]
    · rw [if_neg hb]
      show (ps.filter keepPart).any _ = true
      have hany : (ps.filter keepPart).any (fun p => p.type == "text") = true := by
        cases hx : (ps.filter keepPart).any (fun p => p.type == "text")
        · exact absurd (by rw [hx]; simp) hb
        · rfl
      obtain ⟨p, hpf, hpt⟩ := List.any_eq_true.mp hany
      have hkeep := (List.mem_filter.mp hpf).2
      apply List.any_eq_true.mpr
      refine ⟨p, hpf, ?_⟩
      rw [Bool.and_eq_true]
      refine ⟨hpt, ?_⟩
      unfold keepPart at hkeep
      rw [Bool.or_eq_true] at hkeep
      rcases hkeep with h | h
      · exact absurd (eq_of_beq hpt) (of_decide_eq_true h)
      · exact bne_iff_ne.mpr (of_decide_eq_true h)
  | other raw =>
    rw [hc] at hshape
    exact absurd hshape (by simp [sanitizeContent, isStrOrParts])

/-- A complete SSE `data:` frame, not yet terminated by its LF. -/
def sseFrame : List Char := "data: X".data

/-- Claim C9, failing input: when a read boundary falls between a complete
`data:` frame and its terminating LF, `streamGoogle`'s read loop hands the
frame line to the JSON decoder twice — once as the "partial" final line of
the first read (which it both processes and retains in the buffer) and
once after the LF arrives — while the stream contains the complete line
exactly once and `streamOpenRouter`'s loop (which pops the partial line
without processing it) hands it over exactly once. -/
theorem claim9_google_double_decode :
    (googleFeed [] [sseFrame, ['\n']]).1.count sseFrame = 2
    ∧ (completeLines (sseFrame ++ ['\n'])).count sseFrame = 1
    ∧ (orFeed [] [sseFrame, ['\n']]).1 = [sseFrame] := by
  refine ⟨?_, ?_, ?_⟩ <;> rfl

/-! ### Concrete witnesses -/

def wit1Run : Run := ⟨"a", 1, .done, none, [7], "", [], false, false, 0, false⟩

def wit1World : World :=
  ⟨[("u", wit1Run)],
   [(.deltaK "a" 0, .deltaV ⟨0, "p", []⟩), (.deltaK "a" 1, .deltaV ⟨1, "q", []⟩)]⟩

def wit1Begin : BeginMsg := ⟨"a", "K", none, "m", some [exUser], some 0, ""⟩

/-- Witness for claim C1 at a concrete terminal Run with two persisted
deltas and cursor `after = 0`. -/
theorem claim1_witness :
    handleMessage wit1World "u" 9 (.beginM wit1Begin) 3 =
      (wit1World,
       ((getDeltas wit1World.kv wit1Run.rid).filter
           (fun it => wit1Begin.after.getD (-1) < it.seq)).map
           (fun it => Output.send 9 (.delta it.seq it.text it.images))
         ++ (if wit1Run.phase = .done then [Output.send 9 .done]
             else if wit1Run.phase = .error ∨ wit1Run.phase = .evicted then
               [Output.send 9 (.err (errMsg wit1Run.error))]
             else []))
    ∧ List.Pairwise (fun a c => a.seq ≤ c.seq) (getDeltas wit1World.kv wit1Run.rid)
    ∧ (getDeltas wit1World.kv wit1Run.rid).Perm (deltasFor wit1World.kv wit1Run.rid)
    ∧ ∀ p, Output.upstreamStart p ∉ (handleMessage wit1World "u" 9 (.beginM wit1Begin) 3).2 :=
  claim1_resume_replays wit1World "u" 9 wit1Begin 3 ⟨"m", some [exUser]⟩ [exUser]
    wit1Run wit1World (by decide) (by decide) (by decide) (by decide) (by decide)
    (by decide) (by decide) (by decide)

def wit2Snap : Snap := ⟨"v", 0, .done, none, 5⟩

def wit2World : World :=
  ⟨[], [(.runK "v", .snapV wit2Snap), (.deltaK "v" 0, .deltaV ⟨0, "hi", []⟩)]⟩

/-- Witness for the amended claim C2 at a concrete evicted world whose
Run used `rid = uid = "v"`. -/
theorem claim2_witness :
    (handlePoll wit2World "v").1.rid = some "v"
    ∧ (handlePoll wit2World "v").1.seq = wit2Snap.seq
    ∧ (handlePoll wit2World "v").1.phase = wit2Snap.phase
    ∧ (handlePoll wit2World "v").1.done = true
    ∧ (handlePoll wit2World "v").1.error
        = (if wit2Snap.phase = .error ∨ wit2Snap.phase = .evicted then
            some (errMsg wit2Snap.error) else none)
    ∧ (handlePoll wit2World "v").1.text = joinTexts (getDeltas wit2World.kv "v")
    ∧ (handlePoll wit2World "v").1.images
        = ((getDeltas wit2World.kv "v").map (fun d => d.images)).flatten :=
  claim2_poll_after_eviction wit2World "v" wit2Snap (by decide) (by decide) (by decide)

def wit3Run : Run := ⟨"a", 1, .running, none, [], "x", [], false, false, 0, false⟩

def wit3Run2 : Run := ⟨"a", 1, .running, none, [], "", [], false, false, 0, false⟩

def wit3World : World := ⟨[], [(.runK "v", .snapV ⟨"v", 3, .done, none, 7⟩)]⟩

/-- Witness for the amended claim C3 at concrete runs and a concrete
snapshot. -/
theorem claim3_witness :
    ((flush wit3Run [] true).1.seq = wit3Run.seq + 1
      ∧ getAssoc (flush wit3Run [] true).2.1 (.deltaK wit3Run.rid (wit3Run.seq + 1))
          = some (.deltaV ⟨wit3Run.seq + 1, wit3Run.pending, wit3Run.pendingImages⟩))
    ∧ (flush wit3Run2 [] false).1.seq = wit3Run2.seq
    ∧ (metaRun wit3World "v").1
        = some ⟨"v", 3, .done, none, [], "", [], false, false, 7, false⟩ :=
  ⟨claim3_seq_assignment.1 wit3Run [] true (by decide),
   claim3_seq_assignment.2.1 wit3Run2 [] false (by decide) (by decide),
   claim3_seq_assignment.2.2 wit3World "v" ⟨"v", 3, .done, none, 7⟩ (by decide) (by decide)⟩

def wit4Run : Run := ⟨"a", 0, .running, none, [7], "", [], false, true, 0, true⟩

def wit4World : World := ⟨[("u", wit4Run)], []⟩

def wit4Begin : BeginMsg := ⟨"z", "K", none, "m", some [exUser], none, ""⟩

/-- Witness for claim C4 at a concrete running Run and a begin with a
different rid. -/
theorem claim4_witness :
    handleMessage wit4World "u" 7 (.beginM wit4Begin) 1 =
      (wit4World, [.send 7 (.err "busy")])
    ∧ getAssoc (handleMessage wit4World "u" 7 (.beginM wit4Begin) 1).1.runs "u"
        = some wit4Run
    ∧ (handleMessage wit4World "u" 7 (.beginM wit4Begin) 1).1.kv = wit4World.kv :=
  claim4_busy_leaves_run wit4World "u" 7 wit4Begin 1 ⟨"m", some [exUser]⟩ [exUser]
    wit4Run wit4World (by decide) (by decide) (by decide) (by decide) (by decide)
    (by decide) (by decide) (by decide)

def wit5Run : Run := ⟨"a", 1, .running, none, [3, 4], "buf", [], true, true, 6, true⟩

/-- Witness for claim C5 at a concrete running Run with two sockets and a
buffered pending text, failing with message "boom". -/
theorem claim5_witness :
    fail wit5Run [] "boom" =
      ({ wit5Run with seq := wit5Run.seq + 1, phase := Phase.error,
                      error := some (if "boom" = "" then "stream_failed" else "boom"),
                      pending := "", pendingImages := [],
                      flushTimer := false, timeoutTimer := false },
       setAssoc
         (setAssoc [] (.deltaK wit5Run.rid (wit5Run.seq + 1))
           (.deltaV ⟨wit5Run.seq + 1,
             wit5Run.pending
               ++ ("\n\nRun failed: " ++ (if "boom" = "" then "stream_failed" else "boom")),
             wit5Run.pendingImages⟩))
         (.runK wit5Run.rid)
         (.snapV ⟨wit5Run.rid, wit5Run.seq + 1, .error,
           some (if "boom" = "" then "stream_failed" else "boom"), wit5Run.startedAt⟩),
       wit5Run.sockets.map (fun s => Output.send s
           (.delta (wit5Run.seq + 1)
             (wit5Run.pending
               ++ ("\n\nRun failed: " ++ (if "boom" = "" then "stream_failed" else "boom")))
             wit5Run.pendingImages))
         ++ [Output.abortO]
         ++ wit5Run.sockets.map (fun s => Output.send s
             (.err (if "boom" = "" then "stream_failed" else "boom")))
         ++ [.notifyO wit5Run.rid])
    ∧ (handlePoll ⟨[("u", (fail wit5Run [] "boom").1)], (fail wit5Run [] "boom").2.1⟩
        "u").1.phase = .error
    ∧ (handlePoll ⟨[("u", (fail wit5Run [] "boom").1)], (fail wit5Run [] "boom").2.1⟩
        "u").1.done = true
    ∧ (handlePoll ⟨[("u", (fail wit5Run [] "boom").1)], (fail wit5Run [] "boom").2.1⟩
        "u").1.error = some (if "boom" = "" then "stream_failed" else "boom")
    ∧ (abortLike "E" (dfltMsg "x") = false →
        adapterSettled wit5Run [] (.thrown "E" "x") = fail wit5Run [] (dfltMsg "x"))
    ∧ timeoutFire wit5Run [] = fail wit5Run [] "Run timed out after 9 minutes." :=
  claim5_failure_path wit5Run [] "u" "boom" "E" "x" (by decide) (by decide)

def wit6Run : Run := ⟨"a", 0, .running, none, [3], "", [], false, true, 0, true⟩

/-- Witness for claim C6 at a concrete running Run and an `AbortError`
throw. -/
theorem claim6_witness :
    ((adapterSettled wit6Run [] (.thrown "AbortError" "")).1.phase = .error
        ↔ wit6Run.phase = .error)
    ∧ (wit6Run.phase = .running →
        (adapterSettled wit6Run [] (.thrown "AbortError" "")).1.phase = .done
        ∧ (adapterSettled wit6Run [] (.thrown "AbortError" "")).1.error = none)
    ∧ ∀ (s : Nat) (m : String),
        Output.send s (.err m) ∉ (adapterSettled wit6Run [] (.thrown "AbortError" "")).2.2 :=
  claim6_abort_suppressed wit6Run [] "AbortError" "" (by decide)

def wit7Evs : List RunEv := [.deltaE "hel" [], .deltaE "lo" []]

/-- Witness for claim C7 at the literal happy-path scenario of the spec:
fresh uid "u1", begin rid "r1", adapter emits "hel" then "lo" and
returns. -/
theorem claim7_witness :
    (handlePoll (happyWorld ⟨[], []⟩ "u1" 0 (exBegin "r1") 0 wit7Evs) "u1").1.done = true
    ∧ (handlePoll (happyWorld ⟨[], []⟩ "u1" 0 (exBegin "r1") 0 wit7Evs) "u1").1.error = none
    ∧ (handlePoll (happyWorld ⟨[], []⟩ "u1" 0 (exBegin "r1") 0 wit7Evs) "u1").1.phase = .done
    ∧ (handlePoll (happyWorld ⟨[], []⟩ "u1" 0 (exBegin "r1") 0 wit7Evs) "u1").1.rid
        = some (exBegin "r1").rid
    ∧ (handlePoll (happyWorld ⟨[], []⟩ "u1" 0 (exBegin "r1") 0 wit7Evs) "u1").1.text
        = evTexts wit7Evs
    ∧ (handlePoll (happyWorld ⟨[], []⟩ "u1" 0 (exBegin "r1") 0 wit7Evs) "u1").1.seq
        = ((deltasFor (happyWorld ⟨[], []⟩ "u1" 0 (exBegin "r1") 0 wit7Evs).kv
            (exBegin "r1").rid).length : Int) - 1
    ∧ ∀ d ∈ deltasFor (happyWorld ⟨[], []⟩ "u1" 0 (exBegin "r1") 0 wit7Evs).kv
          (exBegin "r1").rid,
        d.seq ≤ (handlePoll (happyWorld ⟨[], []⟩ "u1" 0 (exBegin "r1") 0 wit7Evs) "u1").1.seq :=
  claim7_stream_then_poll ⟨[], []⟩ "u1" 0 (exBegin "r1") 0 wit7Evs
    ⟨"m", some [exUser]⟩ [exUser] rfl rfl (by decide) (by decide) (by decide) (by decide)
    (by decide) (fun _ => rfl)

def wit8Msg : Message := ⟨"user", .str " ", "k"⟩

/-- Witness for the amended claim C8 at a concrete whitespace-only string
message. -/
theorem claim8_witness :
    (∃ m ∈ [wit8Msg], (⟨"user", .str ".", "k"⟩ : Message).role = m.role
      ∧ (⟨"user", .str ".", "k"⟩ : Message).extra = m.extra
      ∧ (⟨"user", .str ".", "k"⟩ : Message).content = sanitizeContent m.content)
    ∧ (isStrOrParts (⟨"user", .str ".", "k"⟩ : Message).content = true →
        hasTextPart ⟨"user", .str ".", "k"⟩ = true) :=
  claim8_sanitized_text_part [wit8Msg] ⟨"user", .str ".", "k"⟩ (by decide)

/-- Witness for claim C10 at a concrete running Run and a stop with a
different rid. -/
theorem claim10_witness :
    handleMessage wit4World "u" 7 (.stopM "z") 1 = (wit4World, [])
    ∧ getAssoc (handleMessage wit4World "u" 7 (.stopM "z") 1).1.runs "u" = some wit4Run
    ∧ (handleMessage wit4World "u" 7 (.stopM "z") 1).1.kv = wit4World.kv :=
  claim10_stop_mismatch_silent wit4World "u" 7 "z" 1 wit4Run wit4World (by decide) (by decide)
